import Mathlib
/-!
# Verification of the lobber reverse-tunnel relay core

A shallow embedding, in Lean, of the core of the lobber repository:

* the tunnel frame codec (`internal/tunnel/protocol.go`): length-prefixed
  framing with JSON payloads, modelled down to the character level;
* the relay tunnel session and registry (`internal/relay/server.go`):
  the Connected/Ready/Closed state machine, the bounded pre-ready queue,
  the in-flight correlation table of the read loop, registration, and the
  public request router.

Machine integers are modelled as `Nat`/`Int` with explicit `% 2 ^ 32` where
the Go code converts to `uint32`.  Byte strings are `List Nat` with values
below 256.  The JSON wire text is modelled at unicode-scalar granularity
(`List Char`); Go's UTF-8 byte layer is an order-preserving bijection on
valid strings and is elided, so the four-byte frame length counts scalars
where Go counts bytes — a relabelling that does not affect any round-trip
or framing statement proved here.

Go's `encoding/json` is standard-library code outside this repository; its
marshalling of the two payload structs is modelled from its documented
behaviour: struct fields in declaration order, strings escaped (including
the HTML escapes `<`, `>`, `&` and the line separators U+2028/U+2029),
`[]byte` as standard base64, `map[string][]string` as an object with keys
in sorted order.  The payload parser covers the grammar the encoder emits
(Go's parser accepts a superset: insignificant whitespace, floating-point
numerals, surrogate escapes; none of these arise in round-trip statements).
-/
set_option maxHeartbeats 1000000

namespace Lobber

/-! ## Character constants

Named characters used by the JSON serializer, kept as `Char.ofNat` of the
code point. -/
def qChar : Char := Char.ofNat 34        -- double quote

def bslashChar : Char := Char.ofNat 92   -- backslash

def lbraceChar : Char := Char.ofNat 123  -- opening brace

def rbraceChar : Char := Char.ofNat 125  -- closing brace

namespace tunnel

/-! ## `internal/tunnel/protocol.go` — data model

`Request` and `Response` mirror the two payload structs.  Headers are the
graph of the Go `map[string][]string`; since Go maps are unordered and
`encoding/json` marshals map keys in sorted order, a map value is
represented canonically by its key-sorted association list.  Bodies are
byte lists (`Nat` values below 256). -/
/-- `tunnel.Request`: an HTTP request forwarded through the tunnel. -/
structure Request where
  id : String
  method : String
  path : String
  headers : List (String × List String)
  body : List Nat
deriving DecidableEq

/-- `tunnel.Response`: an HTTP response returned by the tunnel client. -/
structure Response where
  id : String
  statusCode : Int
  headers : List (String × List String)
  body : List Nat
deriving DecidableEq

/-- Frame tag `TypeRequest = 0x01`. -/
def TypeRequest : Nat := 1

/-- Frame tag `TypeResponse = 0x02`. -/
def TypeResponse : Nat := 2

/-! ## JSON values

The abstract syntax of the JSON documents `encoding/json` produces for the
two payload structs. -/
/-- A JSON value. -/
inductive Json where
  | null : Json
  | str : String → Json
  | num : Int → Json
  | arr : List Json → Json
  | obj : List (String × Json) → Json

/-! ### Serialization (modelled from `encoding/json` marshalling) -/
/-- Lower-case hex digit, as Go's encoder uses. -/
def hexChar (d : Nat) : Char :=
  if d < 10 then Char.ofNat (48 + d) else Char.ofNat (87 + d)

/-- Four hex digits, most significant first (`\u` escape payload). -/
def hex4 (n : Nat) : List Char :=
  [hexChar (n / 4096 % 16), hexChar (n / 256 % 16), hexChar (n / 16 % 16), hexChar (n % 16)]

/-- Escape one character of a JSON string the way Go's encoder does:
quote and backslash get a backslash escape, newline/carriage-return/tab
their short escapes, other control characters plus `<`, `>`, `&` (HTML
escaping is on by default) and U+2028/U+2029 a `\u` escape; everything
else is emitted raw. -/
def escapeChar (c : Char) : List Char :=
  if c = qChar then [bslashChar, qChar]
  else if c = bslashChar then [bslashChar, bslashChar]
  else if c.toNat = 10 then [bslashChar, 'n']
  else if c.toNat = 13 then [bslashChar, 'r']
  else if c.toNat = 9 then [bslashChar, 't']
  else if c.toNat < 32 ∨ c = '<' ∨ c = '>' ∨ c = '&' ∨ c.toNat = 8232 ∨ c.toNat = 8233 then
    bslashChar :: 'u' :: hex4 c.toNat
  else [c]

/-- Serialize a string: quote, escaped characters, quote. -/
def serString (s : String) : List Char :=
  qChar :: (s.data.flatMap escapeChar) ++ [qChar]

/-- Decimal digits, most significant first, by fuel-bounded recursion
(`fuel > n` suffices; the wrapper `serNat` passes `n + 1`). -/
def serNatAux : Nat → Nat → List Char
  | 0, _ => []
  | fuel + 1, n =>
    if n < 10 then [Char.ofNat (48 + n)]
    else serNatAux fuel (n / 10) ++ [Char.ofNat (48 + n % 10)]

/-- Decimal digits of a natural number, most significant first. -/
def serNat (n : Nat) : List Char := serNatAux (n + 1) n

/-- Decimal numeral of an integer (Go `strconv`-style). -/
def serInt (i : Int) : List Char :=
  if i < 0 then '-' :: serNat i.natAbs else serNat i.natAbs

mutual

/-- Serialize a JSON value, exactly as Go's encoder prints it (no
whitespace, fields in order). -/
def serJson : Json → List Char
  | .null => ['n', 'u', 'l', 'l']
  | .str s => serString s
  | .num i => serInt i
  | .arr [] => ['[', ']']
  | .arr (x :: xs) => '[' :: (serJson x ++ serArrTail xs)
  | .obj [] => [lbraceChar, rbraceChar]
  | .obj (f :: fs) => lbraceChar :: (serMember f ++ serObjTail fs)

/-- The rest of an array after its first element, including the closer. -/
def serArrTail : List Json → List Char
  | [] => [']']
  | x :: xs => ',' :: (serJson x ++ serArrTail xs)

/-- One object member: key, colon, value. -/
def serMember : String × Json → List Char
  | (k, v) => serString k ++ ':' :: serJson v

/-- The rest of an object after its first member, including the closer. -/
def serObjTail : List (String × Json) → List Char
  | [] => [rbraceChar]
  | f :: fs => ',' :: (serMember f ++ serObjTail fs)

end

/-! ### Base64 (standard alphabet with padding, as Go encodes `[]byte`) -/
/-- The standard base64 alphabet. -/
def b64Char (v : Nat) : Char :=
  if v < 26 then Char.ofNat (65 + v)
  else if v < 52 then Char.ofNat (97 - 26 + v)
  else if v < 62 then Char.ofNat (v - 52 + 48)
  else if v = 62 then '+'
  else '/'

/-- Standard base64 with padding. -/
def base64Encode : List Nat → List Char
  | b1 :: b2 :: b3 :: rest =>
      b64Char (b1 / 4) :: b64Char (b1 % 4 * 16 + b2 / 16) ::
      b64Char (b2 % 16 * 4 + b3 / 64) :: b64Char (b3 % 64) :: base64Encode rest
  | [b1, b2] =>
      [b64Char (b1 / 4), b64Char (b1 % 4 * 16 + b2 / 16), b64Char (b2 % 16 * 4), '=']
  | [b1] =>
      [b64Char (b1 / 4), b64Char (b1 % 4 * 16), '=', '=']
  | [] => []

/-- Value of a base64 alphabet character. -/
def b64Val (c : Char) : Option Nat :=
  if 65 ≤ c.toNat ∧ c.toNat ≤ 90 then some (c.toNat - 65)
  else if 97 ≤ c.toNat ∧ c.toNat ≤ 122 then some (c.toNat - 97 + 26)
  else if 48 ≤ c.toNat ∧ c.toNat ≤ 57 then some (c.toNat - 48 + 52)
  else if c = '+' then some 62
  else if c = '/' then some 63
  else none

/-- Standard base64 decoding of a padded encoding. -/
def base64Decode : List Char → Option (List Nat)
  | [] => some []
  | c1 :: c2 :: c3 :: c4 :: rest => do
      let v1 ← b64Val c1
      let v2 ← b64Val c2
      if c3 = '=' then
        if c4 = '=' ∧ rest = [] then some [v1 * 4 + v2 / 16] else none
      else do
        let v3 ← b64Val c3
        if c4 = '=' then
          if rest = [] then some [v1 * 4 + v2 / 16, v2 % 16 * 16 + v3 / 4] else none
        else do
          let v4 ← b64Val c4
          let tail ← base64Decode rest
          some ((v1 * 4 + v2 / 16) :: (v2 % 16 * 16 + v3 / 4) :: (v3 % 4 * 64 + v4) :: tail)
  | _ => none

/-! ### Parsing (modelled from `encoding/json` unmarshalling)

The parser consumes a prefix of the character stream and returns the value
plus the unconsumed tail.  It covers the whitespace-free integer grammar
the encoder emits. -/
/-- Value of a hex digit (either case). -/
def hexVal (c : Char) : Option Nat :=
  if 48 ≤ c.toNat ∧ c.toNat ≤ 57 then some (c.toNat - 48)
  else if 97 ≤ c.toNat ∧ c.toNat ≤ 102 then some (c.toNat - 87)
  else if 65 ≤ c.toNat ∧ c.toNat ≤ 70 then some (c.toNat - 55)
  else none

/-- Resolve a single-character escape. -/
def unescapeChar (c : Char) : Option Char :=
  if c = qChar then some qChar
  else if c = bslashChar then some bslashChar
  else if c = '/' then some '/'
  else if c = 'n' then some (Char.ofNat 10)
  else if c = 'r' then some (Char.ofNat 13)
  else if c = 't' then some (Char.ofNat 9)
  else if c = 'b' then some (Char.ofNat 8)
  else if c = 'f' then some (Char.ofNat 12)
  else none

/-- Parse the body of a string literal up to (and consuming) the closing
quote, resolving escapes; returns the decoded characters and the tail. -/
def parseStringBody : List Char → Option (List Char × List Char)
  | [] => none
  | c :: cs =>
    if c = qChar then some ([], cs)
    else if c = bslashChar then
      match cs with
      | [] => none
      | e :: rest =>
        if e = 'u' then
          match rest with
          | h1 :: h2 :: h3 :: h4 :: rest2 => do
              let d1 ← hexVal h1
              let d2 ← hexVal h2
              let d3 ← hexVal h3
              let d4 ← hexVal h4
              let (tail, rem) ← parseStringBody rest2
              some (Char.ofNat (d1 * 4096 + d2 * 256 + d3 * 16 + d4) :: tail, rem)
          | _ => none
        else do
          let c2 ← unescapeChar e
          let (tail, rem) ← parseStringBody rest
          some (c2 :: tail, rem)
    else do
      let (tail, rem) ← parseStringBody cs
      some (c :: tail, rem)

/-- Is this a decimal digit? -/
def isDigitC (c : Char) : Bool :=
  48 ≤ c.toNat && c.toNat ≤ 57

/-- Greedily consume decimal digits, accumulating their value. -/
def parseDigitsAux : List Char → Nat → Nat × List Char
  | [], acc => (acc, [])
  | c :: cs, acc =>
    if isDigitC c then parseDigitsAux cs (acc * 10 + (c.toNat - 48)) else (acc, c :: cs)

/-- Parse a nonempty digit run. -/
def parseDigits : List Char → Option (Nat × List Char)
  | c :: cs => if isDigitC c then some (parseDigitsAux (c :: cs) 0) else none
  | [] => none

/-- Parse an integer numeral with optional leading minus. -/
def parseIntNum : List Char → Option (Int × List Char)
  | c :: cs =>
    if c = '-' then do
      let (n, rem) ← parseDigits cs
      some (-(n : Int), rem)
    else do
      let (n, rem) ← parseDigits (c :: cs)
      some ((n : Int), rem)
  | [] => none

mutual

/-- Fuel-indexed JSON value parser for the grammar the encoder emits. -/
def parseValue : Nat → List Char → Option (Json × List Char)
  | 0, _ => none
  | fuel + 1, cs =>
    match cs with
    | [] => none
    | c :: rest =>
      if c = qChar then do
        let (chars, rem) ← parseStringBody rest
        some (.str (String.mk chars), rem)
      else if c = 'n' then
        match rest with
        | 'u' :: 'l' :: 'l' :: rem => some (.null, rem)
        | _ => none
      else if c = '[' then
        match rest with
        | [] => none
        | r :: rem =>
          if r = ']' then some (.arr [], rem)
          else do
            let (x, r1) ← parseValue fuel (r :: rem)
            let (xs, r2) ← parseArrTail fuel r1
            some (.arr (x :: xs), r2)
      else if c = lbraceChar then
        match rest with
        | r :: rem =>
          if r = rbraceChar then some (.obj [], rem)
          else do
            let (f, r1) ← parseMember fuel (r :: rem)
            let (fs, r2) ← parseObjTail fuel r1
            some (.obj (f :: fs), r2)
        | [] => none
      else do
        let (i, rem) ← parseIntNum (c :: rest)
        some (.num i, rem)

/-- Parse the rest of an array: either the closer or comma-separated
further elements. -/
def parseArrTail : Nat → List Char → Option (List Json × List Char)
  | 0, _ => none
  | fuel + 1, cs =>
    match cs with
    | [] => none
    | c :: rest =>
      if c = ']' then some ([], rest)
      else if c = ',' then do
        let (x, r1) ← parseValue fuel rest
        let (xs, r2) ← parseArrTail fuel r1
        some (x :: xs, r2)
      else none

/-- Parse one object member: quoted key, colon, value. -/
def parseMember : Nat → List Char → Option ((String × Json) × List Char)
  | 0, _ => none
  | fuel + 1, cs =>
    match cs with
    | c :: rest =>
      if c = qChar then do
        let (kchars, r1) ← parseStringBody rest
        match r1 with
        | ':' :: r2 => do
            let (v, r3) ← parseValue fuel r2
            some ((String.mk kchars, v), r3)
        | _ => none
      else none
    | [] => none

/-- Parse the rest of an object: either the closer or comma-separated
further members. -/
def parseObjTail : Nat → List Char → Option (List (String × Json) × List Char)
  | 0, _ => none
  | fuel + 1, cs =>
    match cs with
    | [] => none
    | c :: rest =>
      if c = rbraceChar then some ([], rest)
      else if c = ',' then do
        let (f, r1) ← parseMember fuel rest
        let (fs, r2) ← parseObjTail fuel r1
        some (f :: fs, r2)
      else none

end

/-! ### Struct marshalling

`encoding/json` marshals a struct as an object with the fields in
declaration order under their tag names, a `map[string][]string` as an
object with keys in sorted (byte-lexicographic, equivalently scalar-
lexicographic) order, and `[]byte` as a standard-base64 string.  A non-nil
empty slice/map is modelled; `nil` marshals as `null`, which unmarshals to
the same model value (`[]`), so the nil/empty distinction is invisible to
the round-trip statements. -/
/-- Keys in sorted order, as Go's map marshalling emits them. -/
def sortHeaders (h : List (String × List String)) : List (String × List String) :=
  h.insertionSort (fun a b => a.1 ≤ b.1)

/-- The JSON document for a `map[string][]string` value. -/
def headersToJson (h : List (String × List String)) : Json :=
  .obj ((sortHeaders h).map (fun kv => (kv.1, .arr (kv.2.map .str))))

/-- The JSON document `json.Marshal` produces for a `Request`. -/
def marshalRequest (r : Request) : Json :=
  .obj [("id", .str r.id), ("method", .str r.method), ("path", .str r.path),
        ("headers", headersToJson r.headers),
        ("body", .str (String.mk (base64Encode r.body)))]

/-- The JSON document `json.Marshal` produces for a `Response`. -/
def marshalResponse (s : Response) : Json :=
  .obj [("id", .str s.id), ("status_code", .num s.statusCode),
        ("headers", headersToJson s.headers),
        ("body", .str (String.mk (base64Encode s.body)))]

/-- First binding of a field name in an object (the encoder never emits
duplicate names, so first- vs last-wins is indistinguishable here). -/
def jLookup (k : String) : List (String × Json) → Option Json
  | [] => none
  | f :: fs => if f.1 = k then some f.2 else jLookup k fs

/-- Unmarshal a string field: a missing field or `null` leaves the zero
value, a string is taken as is, anything else is a type error. -/
def jGetString : Option Json → Option String
  | none => some ""
  | some .null => some ""
  | some (.str s) => some s
  | some _ => none

/-- Unmarshal an `int` field. -/
def jGetInt : Option Json → Option Int
  | none => some 0
  | some .null => some 0
  | some (.num i) => some i
  | some _ => none

/-- Unmarshal a `[]string` value. -/
def jGetStrList : Json → Option (List String)
  | .null => some []
  | .arr xs => xs.mapM (fun x => match x with | .str s => some s | _ => none)
  | _ => none

/-- Unmarshal a `map[string][]string` field. -/
def jGetHeaders : Option Json → Option (List (String × List String))
  | none => some []
  | some .null => some []
  | some (.obj fs) => fs.mapM (fun kv => do
      let vs ← jGetStrList kv.2
      some (kv.1, vs))
  | some _ => none

/-- Unmarshal a `[]byte` field (base64 string). -/
def jGetBody : Option Json → Option (List Nat)
  | none => some []
  | some .null => some []
  | some (.str s) => base64Decode s.data
  | some _ => none

/-- `json.Unmarshal` into a `Request` (unknown fields ignored, missing
fields left at their zero values, `null` document leaves the zero
struct). -/
def unmarshalRequest : Json → Option Request
  | .null => some ⟨"", "", "", [], []⟩
  | .obj fs => do
      let id ← jGetString (jLookup "id" fs)
      let method ← jGetString (jLookup "method" fs)
      let path ← jGetString (jLookup "path" fs)
      let headers ← jGetHeaders (jLookup "headers" fs)
      let body ← jGetBody (jLookup "body" fs)
      some ⟨id, method, path, headers, body⟩
  | _ => none

/-- `json.Unmarshal` into a `Response`. -/
def unmarshalResponse : Json → Option Response
  | .null => some ⟨"", 0, [], []⟩
  | .obj fs => do
      let id ← jGetString (jLookup "id" fs)
      let status ← jGetInt (jLookup "status_code" fs)
      let headers ← jGetHeaders (jLookup "headers" fs)
      let body ← jGetBody (jLookup "body" fs)
      some ⟨id, status, headers, body⟩
  | _ => none

/-! ### Framing (`encodeMessage` / `decodeMessage`)

Frame format: `[type:1][length:4 big-endian][payload:n]`.  The length is
the Go `uint32(len(data))` conversion, hence the `% 2 ^ 32`. -/
/-- Four big-endian length bytes. -/
def be4 (n : Nat) : List Char :=
  [Char.ofNat (n / 16777216 % 256), Char.ofNat (n / 65536 % 256),
   Char.ofNat (n / 256 % 256), Char.ofNat (n % 256)]

/-- `encodeMessage`: tag byte, length, payload. -/
def encodeMessage (msgType : Nat) (payload : List Char) : List Char :=
  Char.ofNat (msgType % 256) :: be4 (payload.length % 4294967296) ++ payload

/-- Read the four big-endian length bytes. -/
def readBE4 : List Char → Option (Nat × List Char)
  | a :: b :: c :: d :: rest =>
      some (a.toNat * 16777216 + b.toNat * 65536 + c.toNat * 256 + d.toNat, rest)
  | _ => none

/-- `decodeMessage`: read and check the tag, read the length, read exactly
that many payload symbols (`io.ReadFull` fails on a short stream), parse
the payload as one JSON document with nothing trailing. -/
def decodeMessage (expectedType : Nat) (input : List Char) : Option (Json × List Char) :=
  match input with
  | [] => none
  | t :: rest =>
    if t.toNat = expectedType then
      match readBE4 rest with
      | none => none
      | some (len, r1) =>
        if len ≤ r1.length then
          match parseValue (len + 1) (r1.take len) with
          | some (j, jrem) => if jrem = [] then some (j, r1.drop len) else none
          | none => none
        else none
    else none

/-- `EncodeRequest`: marshal and frame a request. -/
def EncodeRequest (r : Request) : List Char :=
  encodeMessage TypeRequest (serJson (marshalRequest r))

/-- `EncodeResponse`: marshal and frame a response. -/
def EncodeResponse (s : Response) : List Char :=
  encodeMessage TypeResponse (serJson (marshalResponse s))

/-- `DecodeRequest`: unframe and unmarshal a request, returning the
unconsumed stream tail. -/
def DecodeRequest (input : List Char) : Option (Request × List Char) :=
  match decodeMessage TypeRequest input with
  | some (j, rem) =>
    match unmarshalRequest j with
    | some r => some (r, rem)
    | none => none
  | none => none

/-- `DecodeResponse`: unframe and unmarshal a response. -/
def DecodeResponse (input : List Char) : Option (Response × List Char) :=
  match decodeMessage TypeResponse input with
  | some (j, rem) =>
    match unmarshalResponse j with
    | some s => some (s, rem)
    | none => none
  | none => none

/-! ### Round-trip lemmas: decimal numerals -/
/-- Does the stream continue with a decimal digit?  (Greedy digit parsing
stops exactly when this is false.) -/
def noDigitStart : List Char → Bool
  | [] => true
  | c :: _ => !(isDigitC c)

/-! ### Round-trip lemmas: JSON documents

The parser is fuel-indexed; `jweight` bounds the fuel a document needs. -/
mutual

/-- Fuel needed to parse a serialized value. -/
def jweight : Json → Nat
  | .null => 1
  | .str _ => 1
  | .num _ => 1
  | .arr [] => 1
  | .arr (x :: xs) => 1 + jweight x + lweight xs
  | .obj [] => 1
  | .obj (f :: fs) => 1 + mweight f + oweight fs

/-- Fuel needed to parse a serialized array tail. -/
def lweight : List Json → Nat
  | [] => 1
  | x :: xs => 1 + jweight x + lweight xs

/-- Fuel needed to parse a serialized object member. -/
def mweight : String × Json → Nat
  | (_, v) => 1 + jweight v

/-- Fuel needed to parse a serialized object tail. -/
def oweight : List (String × Json) → Nat
  | [] => 1
  | f :: fs => 1 + mweight f + oweight fs

end

/-! ### Validity and the full frame round trip

A frame value is valid when it could have come from the Go structs: the
headers list is the canonical (key-sorted) representation of a Go map,
body bytes fit in a byte, and the marshalled payload fits the `uint32`
length field. -/
/-- Canonical (key-sorted) representation of a Go `map[string][]string`. -/
def ValidHeaders (h : List (String × List String)) : Prop :=
  List.Sorted (fun a b : String × List String => a.1 ≤ b.1) h

instance : DecidablePred ValidHeaders := fun h =>
  inferInstanceAs (Decidable (List.Pairwise _ h))

/-- A `Request` as the Go code could hold it. -/
def ValidRequest (r : Request) : Prop :=
  ValidHeaders r.headers ∧ (∀ b ∈ r.body, b < 256) ∧
    (serJson (marshalRequest r)).length < 4294967296

/-- A `Response` as the Go code could hold it. -/
def ValidResponse (s : Response) : Prop :=
  ValidHeaders s.headers ∧ (∀ b ∈ s.body, b < 256) ∧
    (serJson (marshalResponse s)).length < 4294967296

instance : DecidablePred ValidRequest := fun r =>
  inferInstanceAs (Decidable (ValidHeaders r.headers ∧ (∀ b ∈ r.body, b < 256) ∧
    (serJson (marshalRequest r)).length < 4294967296))

instance : DecidablePred ValidResponse := fun s =>
  inferInstanceAs (Decidable (ValidHeaders s.headers ∧ (∀ b ∈ s.body, b < 256) ∧
    (serJson (marshalResponse s)).length < 4294967296))

end tunnel

namespace relay

open tunnel

/-! ## `internal/relay/server.go` — data model

The session (`Tunnel`), its state machine, the pre-ready queue, the read
loop's in-flight table, and the registry.  Time is `Nat` (nanoseconds);
buffered channels are lists with an explicit capacity check; the
single-use result slot (`respCh`) of a pending request is modelled by
delivery events rather than a mutable cell, so single-delivery can be
stated as a property of the event trace. -/
/-- `TunnelState` (lines 24-31). -/
inductive TunnelState where
  | connected
  | ready
  | closed
deriving DecidableEq

/-- `ServerConfig` (lines 33-40), restricted to the fields the session
logic reads.  `maxPendingQueue` is a Go `int` used as a size bound, hence
`Nat`. -/
structure ServerConfig where
  maxPendingQueue : Nat
  pendingQueueTTL : Nat
deriving DecidableEq

/-- `DefaultServerConfig` (lines 42-48): 100 requests, 5 s (in ns). -/
def DefaultServerConfig : ServerConfig := ⟨100, 5000000000⟩

/-- `pendingRequest` (lines 64-69); the `respCh` slot is represented by
events. -/
structure pendingRequest where
  req : Request
  queuedAt : Nat
deriving DecidableEq

/-- Capacity of `reqCh`: `make(chan *pendingRequest, 100)` (line 243). -/
def reqChCap : Nat := 100

/-- Observable actions of the session: values sent on a pending request's
result slot (`deliver`, with `none` for Go `nil`), slot closure, in-flight
table edits, wire writes, and the close path's effects. -/
inductive Ev where
  | deliver (id : String) (resp : Option Response)
  | closeRespCh (id : String)
  | insertInflight (id : String)
  | removeInflight (id : String)
  | wireWrite (id : String)
  | cancelCtx
  | closeDone
  | connClose
  | onCloseCb
deriving DecidableEq

/-- `Tunnel` (lines 71-97).  `inflight` is the read loop's local `pending`
map (line 452), included here so claims about the in-flight table can be
stated; `doneClosed` models the closed `done` channel, `hasConn` whether
`t.conn != nil`, `hasOnClose` whether the cleanup callback was set. -/
structure Tunnel where
  Domain : String
  state : TunnelState
  pendingQueue : List pendingRequest
  reqCh : List pendingRequest
  inflight : List (String × pendingRequest)
  doneClosed : Bool
  connClosed : Bool
  hasConn : Bool
  hasOnClose : Bool
  config : ServerConfig
deriving DecidableEq

/-- Bytes of an ASCII message body. -/
def strBytes (s : String) : List Nat := s.data.map Char.toNat

/-- The synthetic 503 responses the session fabricates (lines 421-427,
435-441, 543-549): status 503, `Content-Type: text/plain`, short text
body. -/
def syntheticResponse (id : String) (body : String) : Response :=
  ⟨id, 503, [("Content-Type", ["text/plain"])], strBytes body⟩

/-- An HTTP error the handler writes itself via `http.Error` (plus any
extra header it set first). -/
structure HttpOutcome where
  status : Nat
  headers : List (String × String)
  body : String
deriving DecidableEq

/-- Result of the queue/dispatch section of `handleProxy`
(lines 287-344). -/
inductive DispatchRes where
  | queued
  | rejectedFull (o : HttpOutcome)
  | sent
  | closedErr (o : HttpOutcome)
  | wouldBlock
deriving DecidableEq

/-- `handleProxy`, state check and placement (lines 287-344): a Closed
session answers 502; a Connected session queues unless the queue already
holds `MaxPendingQueue` entries, in which case the handler replies 503
with `Retry-After: 1` without enqueueing; a Ready session sends on the
buffered `reqCh` (`wouldBlock` stands for the select suspending when the
channel is full and the session is not closed). -/
def handleProxyQueue (t : Tunnel) (pr : pendingRequest) : Tunnel × DispatchRes :=
  if t.state = .closed then
    (t, .closedErr ⟨502, [], "tunnel closed"⟩)
  else if t.state = .connected then
    if t.config.maxPendingQueue ≤ t.pendingQueue.length then
      (t, .rejectedFull ⟨503, [("Retry-After", "1")], "tunnel not ready, queue full"⟩)
    else
      ({ t with pendingQueue := t.pendingQueue ++ [pr] }, .queued)
  else
    if t.reqCh.length < reqChCap then
      ({ t with reqCh := t.reqCh ++ [pr] }, .sent)
    else if t.doneClosed then
      (t, .closedErr ⟨502, [], "tunnel closed"⟩)
    else
      (t, .wouldBlock)

/-- The loop body of `flushPendingQueue` (lines 417-443), iterating the
queued entries in order: an entry older than the TTL is completed with the
synthetic 503 "request timeout in queue"; otherwise the nonblocking send
to `reqCh` either succeeds (channel has room) or fails with the synthetic
503 "tunnel overloaded". -/
def flushGo (cfg : ServerConfig) (now : Nat) :
    List pendingRequest → List pendingRequest → List Ev → List pendingRequest × List Ev
  | [], chan, evs => (chan, evs)
  | pr :: rest, chan, evs =>
    if now - pr.queuedAt > cfg.pendingQueueTTL then
      flushGo cfg now rest chan (evs ++
        [.deliver pr.req.id (some (syntheticResponse pr.req.id "request timeout in queue")),
         .closeRespCh pr.req.id])
    else if chan.length < reqChCap then
      flushGo cfg now rest (chan ++ [pr]) evs
    else
      flushGo cfg now rest chan (evs ++
        [.deliver pr.req.id (some (syntheticResponse pr.req.id "tunnel overloaded")),
         .closeRespCh pr.req.id])

/-- `flushPendingQueue` (lines 413-445): drain the queue as above and
clear it. -/
def flushPendingQueue (t : Tunnel) (now : Nat) : Tunnel × List Ev :=
  let res := flushGo t.config now t.pendingQueue t.reqCh []
  ({ t with pendingQueue := [], reqCh := res.1 }, res.2)

/-- The events of the close path body (lines 531-557): cancel the context,
close `done`, close the connection if present, fail every queued request
with the synthetic 503 "tunnel closed", and finally invoke the on-close
callback if set.  The in-flight table is not touched — it is a local of
`readLoop`, unreachable from `Close`. -/
def closeEvents (t : Tunnel) : List Ev :=
  [.cancelCtx, .closeDone] ++ (if t.hasConn then [.connClose] else []) ++
    (t.pendingQueue.flatMap fun pr =>
      [.deliver pr.req.id (some (syntheticResponse pr.req.id "tunnel closed")),
       .closeRespCh pr.req.id]) ++
    (if t.hasOnClose then [.onCloseCb] else [])

/-- `Close` (lines 522-558): under `stateMu`, return early when already
Closed, else flip to Closed; then run the close body once. -/
def CloseTunnel (t : Tunnel) : Tunnel × List Ev :=
  if t.state = .closed then (t, [])
  else
    ({ t with
        state := .closed
        doneClosed := true
        connClosed := t.connClosed || t.hasConn
        pendingQueue := [] },
      closeEvents t)

/-- Go `delete(pending, id)` on the in-flight association list (keys are
unique in a map). -/
def removeKey (id : String) (l : List (String × pendingRequest)) :
    List (String × pendingRequest) :=
  l.filter (fun e => ¬(e.1 = id))

/-- One iteration of the request-writing goroutine inside `readLoop`
(lines 459-479): record the request in the in-flight map, then write the
frame (`wireOk` abstracts `EncodeRequest` + `Flush` succeeding).  On a
write failure the entry is removed again, `nil` is sent on the slot, the
slot is closed, and the goroutine returns — the session itself is not
closed by this path.  (The nonblocking nil signal to `t.respCh` at line
466 has no observable effect and is elided.) -/
def writeRequestStep (t : Tunnel) (pr : pendingRequest) (wireOk : Bool) : Tunnel × List Ev :=
  let t1 := { t with inflight := t.inflight ++ [(pr.req.id, pr)] }
  if wireOk then
    (t1, [.insertInflight pr.req.id, .wireWrite pr.req.id])
  else
    ({ t1 with inflight := removeKey pr.req.id t1.inflight },
      [.insertInflight pr.req.id, .deliver pr.req.id none, .closeRespCh pr.req.id])

/-- One response-processing iteration of `readLoop` (lines 495-510): look
the id up in the in-flight map; if present remove it and deliver the
response, otherwise drop the frame. -/
def readResponseStep (t : Tunnel) (resp : Response) : Tunnel × List Ev :=
  match t.inflight.find? (fun e => e.1 = resp.id) with
  | some _ =>
      ({ t with inflight := removeKey resp.id t.inflight },
        [.removeInflight resp.id, .deliver resp.id (some resp), .closeRespCh resp.id])
  | none => (t, [])

/-- What the blocked caller in `handleProxy` observes (lines 347-365),
depending on which select arm fires first. -/
inductive Wakeup where
  | respArrived (r : Option Response)
  | timeout
  | doneChClosed
deriving DecidableEq

/-- The public caller's result. -/
inductive AwaitResult where
  | fromTunnel (resp : Response)
  | httpError (status : Nat) (body : String)
deriving DecidableEq

/-- The select in `handleProxy` (lines 347-365): a `nil` on the slot is
reported as 502 "tunnel error"; a response is copied through; the timeout
arm answers 504; the closed `done` channel answers 502 "tunnel closed". -/
def handlerSelect : Wakeup → AwaitResult
  | .respArrived none => .httpError 502 "tunnel error"
  | .respArrived (some resp) => .fromTunnel resp
  | .timeout => .httpError 504 "tunnel response timeout"
  | .doneChClosed => .httpError 502 "tunnel closed"

/-- Project the slot deliveries out of an event trace. -/
def deliversOf (evs : List Ev) : List (String × Option Response) :=
  evs.filterMap (fun e =>
    match e with
    | .deliver id r => some (id, r)
    | _ => none)

/-! ## Registry and routing

`Server.tunnels` is the hostname → session map (Go map, pointer values).
Pointers are modelled as `Nat` ids into a heap of sessions. -/
/-- Go map assignment `m[k] = v`: replace the binding if present, else
insert. -/
def mapSet (k : String) (v : Nat) : List (String × Nat) → List (String × Nat)
  | [] => [(k, v)]
  | e :: m => if e.1 = k then (k, v) :: m else e :: mapSet k v m

/-- Go map deletion `delete(m, k)`. -/
def mapDel (k : String) : List (String × Nat) → List (String × Nat)
  | [] => []
  | e :: m => if e.1 = k then mapDel k m else e :: mapDel k m

/-- Go map read `m[k]`. -/
def mapGet (k : String) : List (String × Nat) → Option Nat
  | [] => none
  | e :: m => if e.1 = k then some e.2 else mapGet k m

/-- Heap read: dereference a session pointer. -/
def heapGet (tid : Nat) : List (Nat × Tunnel) → Option Tunnel
  | [] => none
  | e :: h => if e.1 = tid then some e.2 else heapGet tid h

/-- Heap update: mutate the pointed-to session. -/
def heapSet (tid : Nat) (t : Tunnel) : List (Nat × Tunnel) → List (Nat × Tunnel)
  | [] => []
  | e :: h => if e.1 = tid then (tid, t) :: h else e :: heapSet tid t h

/-- The server-level state claims range over: the registry map
(`Server.tunnels`, line 53) plus the sessions it may point to. -/
structure World where
  tunnels : List (String × Nat)
  heap : List (Nat × Tunnel)
deriving DecidableEq

/-- `RegisterTunnel` (lines 368-372): `s.tunnels[t.Domain] = t` — a plain
map assignment; the replaced session, if any, is not touched. -/
def RegisterTunnel (w : World) (tid : Nat) : World :=
  match heapGet tid w.heap with
  | some t => { w with tunnels := mapSet t.Domain tid w.tunnels }
  | none => w

/-- `UnregisterTunnel` (lines 374-378): delete by domain, with no check of
which session currently owns the entry. -/
def UnregisterTunnel (w : World) (domain : String) : World :=
  { w with tunnels := mapDel domain w.tunnels }

/-- `HasTunnel` (lines 381-386). -/
def HasTunnel (w : World) (domain : String) : Bool :=
  (mapGet domain w.tunnels).isSome

/-- `Close` at the server level: run the session close path; the on-close
callback installed by `handleConnect` (lines 253-255) unregisters the
session's domain. -/
def CloseWorld (w : World) (tid : Nat) : World :=
  match heapGet tid w.heap with
  | none => w
  | some t =>
    if t.state = .closed then w
    else
      let t2 := (CloseTunnel t).1
      let w2 := { w with heap := heapSet tid t2 w.heap }
      if t.hasOnClose then UnregisterTunnel w2 t.Domain else w2

/-- `stripPort` (lines 601-606): `strings.Cut(hostport, ":")` splits at
the first colon and reports whether one was found; the function returns
the part before it, or the whole string when there is none — in both
cases the longest colon-free initial segment. -/
def stripPort (hostport : String) : String :=
  String.mk (hostport.data.takeWhile (fun c => ¬(c = ':')))

/-- `isPrimaryHost` (lines 608-617). -/
def isPrimaryHost (host baseDomain : String) : Bool :=
  let base := baseDomain.trim
  if ¬(base = "") && host = base then true
  else if host = "" || host = "localhost" || "127.".isPrefixOf host then true
  else false

/-- Where the router sends a public (non-internal) request. -/
inductive RouteResult where
  | proxied (tid : Nat)
  | proxyNotFound
  | landing
  | notFound502
deriving DecidableEq

/-- The registry lookup at the top of `handleProxy` (lines 274-283):
`hostname := r.Host` — the raw Host header, with no port stripping. -/
def handleProxyLookup (w : World) (requestHost : String) : RouteResult :=
  match mapGet requestHost w.tunnels with
  | some tid => .proxied tid
  | none => .proxyNotFound

/-- The hostname routing of `ServeHTTP` (lines 162-179): strip the port
from the Host header; when a tunnel is registered for the stripped host,
delegate to `handleProxy` (which performs its own lookup, on the raw
Host); otherwise fall back to the landing page for the primary host or
reply 502. -/
def serveHTTPRoute (w : World) (requestHost : String) (baseDomain : String) : RouteResult :=
  let host := stripPort requestHost
  if HasTunnel w host then handleProxyLookup w requestHost
  else if isPrimaryHost host baseDomain then .landing
  else .notFound502

/-! ## The ready/close interleaving system (for the state machine claims)

`waitForReady` (lines 396-410) reads one Ready frame and then writes
`state = Ready` under `stateMu` — without re-checking the state.  `Close`
(lines 522-529) checks-and-flips the state atomically under the same
mutex.  The system below has exactly these atomic steps; `dispatch` never
writes the state, so it is irrelevant to reachability of state values. -/
/-- Program counter of the `waitForReady` goroutine: before `DecodeReady`
returns, between its successful return and the state write, and after the
write. -/
inductive WaitPc where
  | start
  | decoded
  | finished
deriving DecidableEq

/-- Atomic steps on (session state, waitForReady pc): `decode` is the
successful return of `DecodeReady` (only possible while the session is
not closed, since Close closes the connection); `write` is waitForReady's
unguarded `t.state = TunnelStateReady` (lines 402-404); `close` is
Close's guarded flip (lines 523-528). -/
inductive SessStep : TunnelState × WaitPc → TunnelState × WaitPc → Prop where
  | decode (s : TunnelState) (h : ¬(s = .closed)) : SessStep (s, .start) (s, .decoded)
  | write (s : TunnelState) : SessStep (s, .decoded) (.ready, .finished)
  | close (s : TunnelState) (w : WaitPc) (h : ¬(s = .closed)) : SessStep (s, w) (.closed, w)

/-- A fresh session: Connected, ready-detection not yet run
(`handleConnect`, lines 237-263). -/
def sessInit : TunnelState × WaitPc := (.connected, .start)

/-- Configurations reachable from a fresh session. -/
inductive SessReachable : TunnelState × WaitPc → Prop where
  | init : SessReachable sessInit
  | step {a b : TunnelState × WaitPc} : SessReachable a → SessStep a b → SessReachable b

/-- `runCloses`: `n` sequential `Close()` calls.  `stateMu` makes each
call's check-and-flip atomic, so any concurrent execution of `n` calls
performs its guards in some sequential order; the body runs only for the
single call whose guard saw a non-Closed state. -/
def runCloses : Nat → Tunnel → Tunnel × List Ev
  | 0, t => (t, [])
  | n + 1, t =>
    let r1 := CloseTunnel t
    let r2 := runCloses n r1.1
    (r2.1, r1.2 ++ r2.2)

/-! ## Drain characterization (specification-side definitions)

The next two definitions follow the wording of the (amended) drain claim
rather than the code: given the channel's current fill, each entry in
order is either timed out, handed to the writer, or failed as overloaded.
`flushGo_spec` proves the code's drain refines them. -/
/-- The entries the drain hands to the writer, in order, starting from a
channel holding `n` entries. -/
def drainSent (cfg : ServerConfig) (now : Nat) : List pendingRequest → Nat → List pendingRequest
  | [], _ => []
  | pr :: rest, n =>
    if now - pr.queuedAt > cfg.pendingQueueTTL then drainSent cfg now rest n
    else if n < reqChCap then pr :: drainSent cfg now rest (n + 1)
    else drainSent cfg now rest n

/-- The synthetic failures the drain delivers, in order: "request timeout
in queue" for an entry older than the TTL, "tunnel overloaded" for a
fresh entry that finds the writer channel full. -/
def drainFails (cfg : ServerConfig) (now : Nat) :
    List pendingRequest → Nat → List (String × Option Response)
  | [], _ => []
  | pr :: rest, n =>
    if now - pr.queuedAt > cfg.pendingQueueTTL then
      (pr.req.id, some (syntheticResponse pr.req.id "request timeout in queue")) ::
        drainFails cfg now rest n
    else if n < reqChCap then drainFails cfg now rest (n + 1)
    else
      (pr.req.id, some (syntheticResponse pr.req.id "tunnel overloaded")) ::
        drainFails cfg now rest n

/-- The pre-ready queue bound. -/
def QueueInv (t : Tunnel) : Prop :=
  t.pendingQueue.length ≤ t.config.maxPendingQueue

instance : DecidablePred QueueInv := fun t =>
  inferInstanceAs (Decidable (t.pendingQueue.length ≤ t.config.maxPendingQueue))

end relay

/-! ## Theorems -/

namespace tunnel

/-! ### Round-trip lemmas: characters and strings -/
theorem char_toNat_ofNat (n : Nat) (h : n.isValidChar) : (Char.ofNat n).toNat = n := by
  simp [Char.ofNat, Char.toNat, h, Char.ofNatAux]
  rfl

theorem char_ofNat_toNat (c : Char) : Char.ofNat c.toNat = c := by
  have hv : (Char.toNat c).isValidChar := c.valid
  apply Char.ext
  rw [Char.ofNat, dif_pos hv]
  apply UInt32.ext
  rfl

theorem hexVal_hexChar : ∀ d : Nat, d < 16 → hexVal (hexChar d) = some d := by decide

/-- Parsing after one escaped character returns that character. -/
theorem parseStringBody_escapeChar (c : Char) (rest : List Char) :
    parseStringBody (escapeChar c ++ rest) =
      (parseStringBody rest).bind (fun p => some (c :: p.1, p.2)) := by
  by_cases h1 : c = qChar
  · subst h1
    rw [show escapeChar qChar = [bslashChar, qChar] by decide]
    simp only [List.cons_append, List.nil_append]
    rw [parseStringBody.eq_def]
    simp [show ¬(bslashChar = qChar) by decide, show ¬(qChar = 'u') by decide,
      show unescapeChar qChar = some qChar by decide]
  by_cases h2 : c = bslashChar
  · subst h2
    rw [show escapeChar bslashChar = [bslashChar, bslashChar] by decide]
    simp only [List.cons_append, List.nil_append]
    rw [parseStringBody.eq_def]
    simp [show ¬(bslashChar = qChar) by decide, show ¬(bslashChar = 'u') by decide,
      show unescapeChar bslashChar = some bslashChar by decide]
  by_cases h3 : c.toNat = 10
  · have hc : c = Char.ofNat 10 := by rw [← h3, char_ofNat_toNat]
    subst hc
    rw [show escapeChar (Char.ofNat 10) = [bslashChar, 'n'] by decide]
    simp only [List.cons_append, List.nil_append]
    rw [parseStringBody.eq_def]
    simp [show ¬(bslashChar = qChar) by decide, show ¬('n' = 'u') by decide,
      show unescapeChar 'n' = some (Char.ofNat 10) by decide]
  by_cases h4 : c.toNat = 13
  · have hc : c = Char.ofNat 13 := by rw [← h4, char_ofNat_toNat]
    subst hc
    rw [show escapeChar (Char.ofNat 13) = [bslashChar, 'r'] by decide]
    simp only [List.cons_append, List.nil_append]
    rw [parseStringBody.eq_def]
    simp [show ¬(bslashChar = qChar) by decide, show ¬('r' = 'u') by decide,
      show unescapeChar 'r' = some (Char.ofNat 13) by decide]
  by_cases h5 : c.toNat = 9
  · have hc : c = Char.ofNat 9 := by rw [← h5, char_ofNat_toNat]
    subst hc
    rw [show escapeChar (Char.ofNat 9) = [bslashChar, 't'] by decide]
    simp only [List.cons_append, List.nil_append]
    rw [parseStringBody.eq_def]
    simp [show ¬(bslashChar = qChar) by decide, show ¬('t' = 'u') by decide,
      show unescapeChar 't' = some (Char.ofNat 9) by decide]
  by_cases h6 : c.toNat < 32 ∨ c = '<' ∨ c = '>' ∨ c = '&' ∨ c.toNat = 8232 ∨ c.toNat = 8233
  · have hbound : c.toNat < 65536 := by
      rcases h6 with h | h | h | h | h | h
      · omega
      · subst h; decide
      · subst h; decide
      · subst h; decide
      · omega
      · omega
    simp only [escapeChar, if_neg h1, if_neg h2, if_neg (by omega : ¬c.toNat = 10),
      if_neg (by omega : ¬c.toNat = 13), if_neg (by omega : ¬c.toNat = 9), if_pos h6,
      hex4, List.cons_append, List.nil_append]
    rw [parseStringBody.eq_def]
    dsimp only
    rw [if_neg (show ¬(bslashChar = qChar) by decide), if_pos rfl, if_pos rfl]
    rw [hexVal_hexChar _ (by omega), hexVal_hexChar _ (by omega),
      hexVal_hexChar _ (by omega), hexVal_hexChar _ (by omega)]
    have harith : c.toNat / 4096 % 16 * 4096 + c.toNat / 256 % 16 * 256 +
        c.toNat / 16 % 16 * 16 + c.toNat % 16 = c.toNat := by omega
    simp only [Option.bind_eq_bind, Option.some_bind, harith, char_ofNat_toNat]
  · have hne : escapeChar c = [c] := by
      simp only [escapeChar, if_neg h1, if_neg h2, if_neg (by omega : ¬c.toNat = 10),
        if_neg (by omega : ¬c.toNat = 13), if_neg (by omega : ¬c.toNat = 9), if_neg h6]
    rw [hne]
    simp only [List.cons_append, List.nil_append]
    rw [parseStringBody.eq_def]
    simp [h1, h2]

/-- Full string-body round trip: escaped characters followed by the closing
quote parse back to the characters. -/
theorem parseStringBody_ser (cs : List Char) (rest : List Char) :
    parseStringBody (cs.flatMap escapeChar ++ (qChar :: rest)) = some (cs, rest) := by
  induction cs with
  | nil =>
      rw [List.flatMap_nil, List.nil_append, parseStringBody.eq_def]
      simp
  | cons c cs ih =>
      rw [List.flatMap_cons, List.append_assoc, parseStringBody_escapeChar, ih]
      rfl

theorem digitChar_toNat : ∀ m : Nat, m < 10 → (Char.ofNat (48 + m)).toNat = 48 + m := by decide

theorem digitChar_isDigit : ∀ m : Nat, m < 10 → isDigitC (Char.ofNat (48 + m)) = true := by decide

theorem serNatAux_mono (n : Nat) :
    ∀ f1 f2, n < f1 → n < f2 → serNatAux f1 n = serNatAux f2 n := by
  induction n using Nat.strong_induction_on with
  | _ n ih =>
    intro f1 f2 h1 h2
    obtain ⟨g1, rfl⟩ : ∃ g, f1 = g + 1 := ⟨f1 - 1, by omega⟩
    obtain ⟨g2, rfl⟩ : ∃ g, f2 = g + 1 := ⟨f2 - 1, by omega⟩
    rw [serNatAux, serNatAux]
    by_cases h : n < 10
    · rw [if_pos h, if_pos h]
    · have hdiv : n / 10 < n := Nat.div_lt_self (by omega) (by omega)
      rw [if_neg h, if_neg h,
        ih (n / 10) hdiv g1 g2 (by omega) (by omega)]

/-- The recursive unfolding of `serNat`. -/
theorem serNat_eq (n : Nat) :
    serNat n = if n < 10 then [Char.ofNat (48 + n)]
      else serNat (n / 10) ++ [Char.ofNat (48 + n % 10)] := by
  unfold serNat
  rw [serNatAux]
  by_cases h : n < 10
  · rw [if_pos h, if_pos h]
  · have hdiv : n / 10 < n := Nat.div_lt_self (by omega) (by omega)
    rw [if_neg h, if_neg h,
      serNatAux_mono (n / 10) n (n / 10 + 1) (by omega) (by omega)]

theorem serNat_digits (n : Nat) : ∀ c ∈ serNat n, isDigitC c = true := by
  induction n using Nat.strong_induction_on with
  | _ n ih =>
    rw [serNat_eq]
    split
    · intro c hc
      rw [List.mem_singleton] at hc
      subst hc
      exact digitChar_isDigit n (by omega)
    · intro c hc
      rcases List.mem_append.1 hc with h | h
      · exact ih (n / 10) (Nat.div_lt_self (by omega) (by omega)) c h
      · rw [List.mem_singleton] at h
        subst h
        exact digitChar_isDigit (n % 10) (Nat.mod_lt _ (by omega))

theorem serNat_ne_nil (n : Nat) : serNat n ≠ [] := by
  rw [serNat_eq]
  split
  · simp
  · simp

theorem parseDigitsAux_spec (ds : List Char) (rest : List Char)
    (hds : ∀ c ∈ ds, isDigitC c = true) (hrest : noDigitStart rest = true) :
    ∀ acc, parseDigitsAux (ds ++ rest) acc =
      (ds.foldl (fun a c => a * 10 + (c.toNat - 48)) acc, rest) := by
  induction ds with
  | nil =>
      intro acc
      match rest with
      | [] => rfl
      | c :: cs =>
          have hc : isDigitC c = false := by
            simpa [noDigitStart] using hrest
          simp [parseDigitsAux, hc]
  | cons d ds ih =>
      intro acc
      have hd : isDigitC d = true := hds d (List.mem_cons_self d ds)
      rw [List.cons_append, parseDigitsAux, if_pos hd, ih (fun c hc => hds c (List.mem_cons_of_mem d hc))]
      rfl

theorem foldl_serNat (n : Nat) : ∀ acc,
    (serNat n).foldl (fun a c => a * 10 + (c.toNat - 48)) acc =
      acc * 10 ^ (serNat n).length + n := by
  induction n using Nat.strong_induction_on with
  | _ n ih =>
    intro acc
    rw [serNat_eq]
    split
    · next h =>
        simp only [List.foldl_cons, List.foldl_nil, List.length_singleton, pow_one]
        rw [digitChar_toNat n h]
        omega
    · next h =>
        rw [List.foldl_append, ih (n / 10) (Nat.div_lt_self (by omega) (by omega)) acc]
        simp only [List.foldl_cons, List.foldl_nil, List.length_append, List.length_singleton]
        rw [digitChar_toNat (n % 10) (Nat.mod_lt _ (by omega)), pow_succ]
        have hdm := Nat.div_add_mod n 10
        set A := 10 ^ (serNat (n / 10)).length with hA
        have : (acc * A + n / 10) * 10 + (48 + n % 10 - 48) = acc * (A * 10) + n := by
          have h1 : 48 + n % 10 - 48 = n % 10 := by omega
          rw [h1, Nat.add_mul, Nat.mul_assoc]
          omega
        omega

theorem parseDigits_serNat (n : Nat) (rest : List Char) (hrest : noDigitStart rest = true) :
    parseDigits (serNat n ++ rest) = some (n, rest) := by
  obtain ⟨d, ds, hds⟩ : ∃ d ds, serNat n = d :: ds := by
    cases h : serNat n with
    | nil => exact absurd h (serNat_ne_nil n)
    | cons d ds => exact ⟨d, ds, rfl⟩
  have hd : isDigitC d = true := serNat_digits n d (by rw [hds]; exact List.mem_cons_self d ds)
  rw [hds, List.cons_append, parseDigits, if_pos hd, ← List.cons_append, ← hds,
    parseDigitsAux_spec _ _ (serNat_digits n) hrest 0, foldl_serNat]
  simp

theorem isDigit_ne_minus {c : Char} (h : isDigitC c = true) : ¬(c = '-') := by
  intro hc
  subst hc
  exact absurd h (by decide)

theorem parseIntNum_serInt (i : Int) (rest : List Char) (hrest : noDigitStart rest = true) :
    parseIntNum (serInt i ++ rest) = some (i, rest) := by
  by_cases hneg : i < 0
  · rw [serInt, if_pos hneg, List.cons_append, parseIntNum, if_pos rfl,
      parseDigits_serNat _ _ hrest]
    simp only [Option.bind_eq_bind, Option.some_bind, Option.some.injEq, Prod.mk.injEq, and_true]
    omega
  · obtain ⟨d, ds, hds⟩ : ∃ d ds, serNat i.natAbs = d :: ds := by
      cases h : serNat i.natAbs with
      | nil => exact absurd h (serNat_ne_nil _)
      | cons d ds => exact ⟨d, ds, rfl⟩
    have hd : isDigitC d = true :=
      serNat_digits i.natAbs d (by rw [hds]; exact List.mem_cons_self d ds)
    rw [serInt, if_neg hneg, hds, List.cons_append, parseIntNum,
      if_neg (isDigit_ne_minus hd), ← List.cons_append, ← hds,
      parseDigits_serNat _ _ hrest]
    simp only [Option.bind_eq_bind, Option.some_bind, Option.some.injEq, Prod.mk.injEq, and_true]
    omega

/-! ### Round-trip lemmas: base64 -/
theorem b64Val_b64Char : ∀ v : Nat, v < 64 → b64Val (b64Char v) = some v := by decide

theorem b64Char_ne_pad : ∀ v : Nat, v < 64 → ¬(b64Char v = '=') := by decide

theorem base64_roundtrip : ∀ bs : List Nat, (∀ b ∈ bs, b < 256) →
    base64Decode (base64Encode bs) = some bs
  | [], _ => rfl
  | [b1], h => by
      have hb1 : b1 < 256 := h b1 (by simp)
      rw [base64Encode.eq_def]
      dsimp only
      rw [base64Decode.eq_def]
      dsimp only
      rw [b64Val_b64Char (b1 / 4) (by omega), b64Val_b64Char (b1 % 4 * 16) (by omega)]
      simp
      omega
  | [b1, b2], h => by
      have hb1 : b1 < 256 := h b1 (by simp)
      have hb2 : b2 < 256 := h b2 (by simp)
      have hpad := b64Char_ne_pad (b2 % 16 * 4) (by omega)
      rw [base64Encode.eq_def]
      dsimp only
      rw [base64Decode.eq_def]
      dsimp only
      rw [b64Val_b64Char (b1 / 4) (by omega),
        b64Val_b64Char (b1 % 4 * 16 + b2 / 16) (by omega),
        b64Val_b64Char (b2 % 16 * 4) (by omega)]
      simp [hpad]
      constructor
      · omega
      · omega
  | b1 :: b2 :: b3 :: b4 :: rest, h => by
      have hb1 : b1 < 256 := h b1 (by simp)
      have hb2 : b2 < 256 := h b2 (by simp)
      have hb3 : b3 < 256 := h b3 (by simp)
      have hpad3 := b64Char_ne_pad (b2 % 16 * 4 + b3 / 64) (by omega)
      have hpad4 := b64Char_ne_pad (b3 % 64) (by omega)
      have ih := base64_roundtrip (b4 :: rest) (fun b hb => h b (by simp at hb ⊢; tauto))
      rw [base64Encode.eq_def]
      dsimp only
      rw [base64Decode.eq_def]
      dsimp only
      rw [b64Val_b64Char (b1 / 4) (by omega),
        b64Val_b64Char (b1 % 4 * 16 + b2 / 16) (by omega),
        b64Val_b64Char (b2 % 16 * 4 + b3 / 64) (by omega),
        b64Val_b64Char (b3 % 64) (by omega)]
      simp only [Option.bind_eq_bind, Option.some_bind, if_neg hpad3, if_neg hpad4]
      rw [ih]
      simp only [Option.some_bind, Option.some.injEq, List.cons.injEq, and_true]
      refine ⟨by omega, by omega, by omega⟩
  | [b1, b2, b3], h => by
      have hb1 : b1 < 256 := h b1 (by simp)
      have hb2 : b2 < 256 := h b2 (by simp)
      have hb3 : b3 < 256 := h b3 (by simp)
      have hpad3 := b64Char_ne_pad (b2 % 16 * 4 + b3 / 64) (by omega)
      have hpad4 := b64Char_ne_pad (b3 % 64) (by omega)
      rw [base64Encode.eq_def]
      dsimp only
      rw [base64Decode.eq_def]
      dsimp only
      rw [b64Val_b64Char (b1 / 4) (by omega),
        b64Val_b64Char (b1 % 4 * 16 + b2 / 16) (by omega),
        b64Val_b64Char (b2 % 16 * 4 + b3 / 64) (by omega),
        b64Val_b64Char (b3 % 64) (by omega)]
      simp only [Option.bind_eq_bind, Option.some_bind, if_neg hpad3, if_neg hpad4]
      rw [show base64Decode (base64Encode []) = some [] from rfl]
      simp only [Option.some_bind, Option.some.injEq, List.cons.injEq, and_true]
      refine ⟨by omega, by omega, by omega⟩

theorem jweight_pos (j : Json) : 1 ≤ jweight j := by
  cases j with
  | null => simp [jweight]
  | str s => simp [jweight]
  | num i => simp [jweight]
  | arr xs => cases xs <;> simp [jweight] <;> omega
  | obj fs => cases fs <;> simp [jweight] <;> omega

theorem lweight_pos (xs : List Json) : 1 ≤ lweight xs := by
  cases xs <;> simp [lweight] <;> omega

theorem mweight_pos (f : String × Json) : 1 ≤ mweight f := by
  cases f
  simp [mweight]

theorem oweight_pos (fs : List (String × Json)) : 1 ≤ oweight fs := by
  cases fs <;> simp [oweight] <;> omega

/-- Every serialized value is nonempty and never starts with an array
closer (used to reduce the parser's empty-array peek). -/
theorem serJson_head (j : Json) :
    ∃ hd tl, serJson j = hd :: tl ∧ ¬(hd = ']') := by
  cases j with
  | null => exact ⟨'n', _, rfl, by decide⟩
  | str s =>
      refine ⟨qChar, s.data.flatMap escapeChar ++ [qChar], ?_, by decide⟩
      rw [serJson, serString]
      simp
  | num i =>
      by_cases hneg : i < 0
      · refine ⟨'-', serNat i.natAbs, ?_, by decide⟩
        rw [serJson, serInt, if_pos hneg]
      · obtain ⟨d, ds, hds⟩ : ∃ d ds, serNat i.natAbs = d :: ds := by
          cases h : serNat i.natAbs with
          | nil => exact absurd h (serNat_ne_nil _)
          | cons d ds => exact ⟨d, ds, rfl⟩
        have hd : isDigitC d = true :=
          serNat_digits i.natAbs d (by rw [hds]; exact List.mem_cons_self d ds)
        refine ⟨d, ds, ?_, ?_⟩
        · rw [serJson, serInt, if_neg hneg, hds]
        · intro h
          subst h
          exact absurd hd (by decide)
  | arr xs =>
      cases xs with
      | nil => exact ⟨'[', _, rfl, by decide⟩
      | cons x xs => exact ⟨'[', _, rfl, by decide⟩
  | obj fs =>
      cases fs with
      | nil => exact ⟨lbraceChar, _, rfl, by decide⟩
      | cons f fs => exact ⟨lbraceChar, _, rfl, by decide⟩

/-- An array tail starts with `]` or `,`, never a digit. -/
theorem serArrTail_noDigitStart (xs : List Json) (rest : List Char) :
    noDigitStart (serArrTail xs ++ rest) = true := by
  cases xs <;> simp [serArrTail, noDigitStart, isDigitC]

/-- An object tail starts with the closing brace or `,`, never a digit. -/
theorem serObjTail_noDigitStart (fs : List (String × Json)) (rest : List Char) :
    noDigitStart (serObjTail fs ++ rest) = true := by
  cases fs <;> simp [serObjTail, noDigitStart, isDigitC] <;> decide

/-- The central JSON round trip: parsing a serialized document (with any
non-digit-starting continuation) returns the document, given fuel at least
its weight.  Stated as one conjunction over the four mutual parsers. -/
theorem parse_ser (fuel : Nat) :
    (∀ j rest, jweight j ≤ fuel → noDigitStart rest = true →
        parseValue fuel (serJson j ++ rest) = some (j, rest)) ∧
    (∀ xs rest, lweight xs ≤ fuel →
        parseArrTail fuel (serArrTail xs ++ rest) = some (xs, rest)) ∧
    (∀ f rest, mweight f ≤ fuel → noDigitStart rest = true →
        parseMember fuel (serMember f ++ rest) = some (f, rest)) ∧
    (∀ fs rest, oweight fs ≤ fuel →
        parseObjTail fuel (serObjTail fs ++ rest) = some (fs, rest)) := by
  induction fuel with
  | zero =>
      refine ⟨?_, ?_, ?_, ?_⟩
      · intro j rest hw _
        have := jweight_pos j
        omega
      · intro xs rest hw
        have := lweight_pos xs
        omega
      · intro f rest hw _
        have := mweight_pos f
        omega
      · intro fs rest hw
        have := oweight_pos fs
        omega
  | succ fuel ih =>
      obtain ⟨ihv, iha, ihm, iho⟩ := ih
      refine ⟨?_, ?_, ?_, ?_⟩
      · intro j rest hw hrest
        cases j with
        | null =>
            rw [serJson, parseValue.eq_def]
            simp only [List.cons_append, List.nil_append]
            simp only [ite_true, if_true]
            rw [if_neg (show ¬('n' = qChar) by decide)]
        | str s =>
            rw [serJson, serString, parseValue.eq_def]
            simp only [List.cons_append, List.append_assoc, List.nil_append,
              List.singleton_append]
            simp only [ite_true, if_true]
            rw [parseStringBody_ser]
            rfl
        | num i =>
            obtain ⟨hd, tl, hser, hhd⟩ :
                ∃ hd tl, serInt i = hd :: tl ∧ (hd = '-' ∨ isDigitC hd = true) := by
              rw [serInt]
              split
              · exact ⟨'-', _, rfl, Or.inl rfl⟩
              · obtain ⟨d, ds, hds⟩ : ∃ d ds, serNat i.natAbs = d :: ds := by
                  cases h : serNat i.natAbs with
                  | nil => exact absurd h (serNat_ne_nil _)
                  | cons d ds => exact ⟨d, ds, rfl⟩
                refine ⟨d, ds, hds, Or.inr ?_⟩
                exact serNat_digits i.natAbs d (by rw [hds]; exact List.mem_cons_self d ds)
            have h1 : ¬(hd = qChar) := by
              intro heq
              subst heq
              rcases hhd with h | h
              · exact absurd h (by decide)
              · exact absurd h (by decide)
            have h2 : ¬(hd = 'n') := by
              intro heq
              subst heq
              rcases hhd with h | h
              · exact absurd h (by decide)
              · exact absurd h (by decide)
            have h3 : ¬(hd = '[') := by
              intro heq
              subst heq
              rcases hhd with h | h
              · exact absurd h (by decide)
              · exact absurd h (by decide)
            have h4 : ¬(hd = lbraceChar) := by
              intro heq
              subst heq
              rcases hhd with h | h
              · exact absurd h (by decide)
              · exact absurd h (by decide)
            rw [serJson, hser, List.cons_append, parseValue.eq_def]
            dsimp only
            rw [if_neg h1, if_neg h2, if_neg h3, if_neg h4, ← List.cons_append, ← hser,
              parseIntNum_serInt i rest hrest]
            rfl
        | arr xs =>
            cases xs with
            | nil =>
                rw [serJson, parseValue.eq_def]
                simp only [List.cons_append, List.nil_append]
                simp only [ite_true, if_true]
                rw [if_neg (show ¬('[' = qChar) by decide),
                  if_neg (show ¬('[' = 'n') by decide)]
            | cons x xs =>
                obtain ⟨hd, tl, hser, hhd⟩ := serJson_head x
                have hw1 : jweight x ≤ fuel := by
                  simp only [jweight] at hw
                  have := lweight_pos xs
                  omega
                have hw2 : lweight xs ≤ fuel := by
                  simp only [jweight] at hw
                  have := jweight_pos x
                  omega
                rw [serJson, List.cons_append, parseValue.eq_def]
                dsimp only
                rw [if_neg (show ¬('[' = qChar) by decide),
                  if_neg (show ¬('[' = 'n') by decide), if_pos rfl,
                  List.append_assoc, hser, List.cons_append]
                dsimp only
                rw [if_neg hhd, ← List.cons_append, ← hser,
                  ihv x _ hw1 (serArrTail_noDigitStart xs rest)]
                simp only [Option.bind_eq_bind, Option.some_bind]
                rw [iha xs rest hw2]
                rfl
        | obj fs =>
            cases fs with
            | nil =>
                rw [serJson, parseValue.eq_def]
                simp only [List.cons_append, List.nil_append]
                rw [if_neg (show ¬(lbraceChar = qChar) by decide),
                  if_neg (show ¬(lbraceChar = 'n') by decide),
                  if_neg (show ¬(lbraceChar = '[') by decide)]
                simp
            | cons f fs =>
                obtain ⟨k, v⟩ := f
                have hw1 : mweight (k, v) ≤ fuel := by
                  simp only [jweight] at hw
                  have := oweight_pos fs
                  omega
                have hw2 : oweight fs ≤ fuel := by
                  simp only [jweight] at hw
                  have := mweight_pos (k, v)
                  omega
                rw [serJson, List.cons_append, parseValue.eq_def]
                dsimp only
                rw [if_neg (show ¬(lbraceChar = qChar) by decide),
                  if_neg (show ¬(lbraceChar = 'n') by decide),
                  if_neg (show ¬(lbraceChar = '[') by decide), if_pos rfl]
                have hmem : serMember (k, v) = qChar ::
                    (k.data.flatMap escapeChar ++ [qChar] ++ (':' :: serJson v)) := by
                  rw [serMember, serString]
                  simp
                rw [List.append_assoc, hmem, List.cons_append]
                dsimp only
                rw [if_neg (show ¬(qChar = rbraceChar) by decide), ← List.cons_append,
                  ← hmem, ihm (k, v) _ hw1 (serObjTail_noDigitStart fs rest)]
                simp only [Option.bind_eq_bind, Option.some_bind]
                rw [iho fs rest hw2]
                rfl
      · intro xs rest hw
        cases xs with
        | nil =>
            rw [serArrTail, parseArrTail.eq_def]
            simp only [List.cons_append, List.nil_append]
            simp
        | cons x xs =>
            have hw1 : jweight x ≤ fuel := by
              simp only [lweight] at hw
              have := lweight_pos xs
              omega
            have hw2 : lweight xs ≤ fuel := by
              simp only [lweight] at hw
              have := jweight_pos x
              omega
            rw [serArrTail, List.cons_append, parseArrTail.eq_def]
            dsimp only
            rw [if_neg (show ¬(',' = ']') by decide), if_pos rfl, List.append_assoc,
              ihv x _ hw1 (serArrTail_noDigitStart xs rest)]
            simp only [Option.bind_eq_bind, Option.some_bind]
            rw [iha xs rest hw2]
            rfl
      · intro f rest hw hrest
        obtain ⟨k, v⟩ := f
        have hwv : jweight v ≤ fuel := by
          simp only [mweight] at hw
          omega
        rw [serMember, serString, parseMember.eq_def]
        simp only [List.cons_append, List.append_assoc, List.nil_append, List.singleton_append]
        simp only [ite_true, if_true]
        rw [parseStringBody_ser]
        simp only [Option.bind_eq_bind, Option.some_bind]
        rw [ihv v rest hwv hrest]
        rfl
      · intro fs rest hw
        cases fs with
        | nil =>
            rw [serObjTail, parseObjTail.eq_def]
            simp only [List.cons_append, List.nil_append]
            simp
        | cons f fs =>
            have hw1 : mweight f ≤ fuel := by
              simp only [oweight] at hw
              have := oweight_pos fs
              omega
            have hw2 : oweight fs ≤ fuel := by
              simp only [oweight] at hw
              have := mweight_pos f
              omega
            rw [serObjTail, List.cons_append, parseObjTail.eq_def]
            dsimp only
            rw [if_neg (show ¬(',' = rbraceChar) by decide), if_pos rfl, List.append_assoc,
              ihm f _ hw1 (serObjTail_noDigitStart fs rest)]
            simp only [Option.bind_eq_bind, Option.some_bind]
            rw [iho fs rest hw2]
            rfl

/-! ### Round-trip lemmas: length bound and framing -/
theorem serInt_ne_nil (i : Int) : serInt i ≠ [] := by
  rw [serInt]
  split
  · simp
  · exact serNat_ne_nil _

mutual

theorem serJson_length : ∀ j : Json, jweight j ≤ (serJson j).length
  | .null => by simp [serJson, jweight]
  | .str s => by simp [serJson, jweight, serString]
  | .num i => by
      simp only [serJson, jweight]
      cases h : serInt i with
      | nil => exact absurd h (serInt_ne_nil i)
      | cons a l => simp
  | .arr [] => by simp [serJson, jweight]
  | .arr (x :: xs) => by
      have h1 := serJson_length x
      have h2 := serArrTail_length xs
      simp only [serJson, jweight, List.length_cons, List.length_append]
      omega
  | .obj [] => by simp [serJson, jweight]
  | .obj (f :: fs) => by
      have h1 := serMember_length f
      have h2 := serObjTail_length fs
      simp only [serJson, jweight, List.length_cons, List.length_append]
      omega

theorem serArrTail_length : ∀ xs : List Json, lweight xs ≤ (serArrTail xs).length
  | [] => by simp [serArrTail, lweight]
  | x :: xs => by
      have h1 := serJson_length x
      have h2 := serArrTail_length xs
      simp only [serArrTail, lweight, List.length_cons, List.length_append]
      omega

theorem serMember_length : ∀ f : String × Json, mweight f ≤ (serMember f).length
  | (k, v) => by
      have h1 := serJson_length v
      simp only [serMember, mweight, List.length_append, List.length_cons]
      omega

theorem serObjTail_length : ∀ fs : List (String × Json), oweight fs ≤ (serObjTail fs).length
  | [] => by simp [serObjTail, oweight]
  | f :: fs => by
      have h1 := serMember_length f
      have h2 := serObjTail_length fs
      simp only [serObjTail, oweight, List.length_cons, List.length_append]
      omega

end

theorem decodeMessage_encodeMessage (tag : Nat) (j : Json) (rest : List Char)
    (htag : tag < 256) (hlen : (serJson j).length < 4294967296) :
    decodeMessage tag (encodeMessage tag (serJson j) ++ rest) = some (j, rest) := by
  have hvalid : (tag % 256).isValidChar := Or.inl (by omega)
  rw [encodeMessage, be4]
  simp only [List.cons_append, List.nil_append]
  rw [decodeMessage.eq_def]
  dsimp only
  rw [char_toNat_ofNat _ hvalid, Nat.mod_eq_of_lt htag, if_pos rfl, readBE4]
  dsimp only
  set L := (serJson j).length with hL
  have hmod : L % 4294967296 = L := Nat.mod_eq_of_lt hlen
  rw [char_toNat_ofNat _ (Or.inl (by omega)), char_toNat_ofNat _ (Or.inl (by omega)),
    char_toNat_ofNat _ (Or.inl (by omega)), char_toNat_ofNat _ (Or.inl (by omega))]
  have hrecon : L % 4294967296 / 16777216 % 256 * 16777216 +
      L % 4294967296 / 65536 % 256 * 65536 + L % 4294967296 / 256 % 256 * 256 +
      L % 4294967296 % 256 = L := by omega
  rw [hrecon]
  have hle : L ≤ (serJson j ++ rest).length := by
    rw [List.length_append]
    omega
  rw [if_pos hle, List.take_left' hL.symm, List.drop_left' hL.symm]
  have hparse := (parse_ser (L + 1)).1 j []
    (by have := serJson_length j; omega) rfl
  rw [List.append_nil] at hparse
  rw [hparse]
  simp

/-! ### Round-trip lemmas: struct marshalling -/
theorem jGetStrList_strs (vs : List String) : jGetStrList (Json.arr (vs.map .str)) = some vs := by
  rw [jGetStrList]
  induction vs with
  | nil => rfl
  | cons v vs ih =>
      rw [List.map_cons, List.mapM_cons]
      simp only at ih ⊢
      rw [ih]
      rfl

theorem jGetHeaders_headersToJson (h : List (String × List String)) :
    jGetHeaders (some (headersToJson h)) = some (sortHeaders h) := by
  rw [headersToJson, jGetHeaders]
  induction sortHeaders h with
  | nil => rfl
  | cons kv l ih =>
      rw [List.map_cons, List.mapM_cons]
      simp only at ih ⊢
      rw [ih, jGetStrList_strs]
      rfl

theorem unmarshal_marshal_request (r : Request)
    (hsorted : List.Sorted (fun a b : String × List String => a.1 ≤ b.1) r.headers)
    (hbytes : ∀ b ∈ r.body, b < 256) :
    unmarshalRequest (marshalRequest r) = some r := by
  have hsort : sortHeaders r.headers = r.headers :=
    List.Sorted.insertionSort_eq hsorted
  rw [marshalRequest, unmarshalRequest]
  simp only [jLookup, if_pos rfl, if_neg, ite_true, ite_false, String.reduceEq, reduceIte]
  rw [jGetHeaders_headersToJson, hsort]
  simp only [jGetString, jGetBody, Option.bind_eq_bind, Option.some_bind]
  rw [base64_roundtrip r.body hbytes]
  rfl

theorem unmarshal_marshal_response (s : Response)
    (hsorted : List.Sorted (fun a b : String × List String => a.1 ≤ b.1) s.headers)
    (hbytes : ∀ b ∈ s.body, b < 256) :
    unmarshalResponse (marshalResponse s) = some s := by
  have hsort : sortHeaders s.headers = s.headers :=
    List.Sorted.insertionSort_eq hsorted
  rw [marshalResponse, unmarshalResponse]
  simp only [jLookup, if_pos rfl, if_neg, ite_true, ite_false, String.reduceEq, reduceIte]
  rw [jGetHeaders_headersToJson, hsort]
  simp only [jGetString, jGetInt, jGetBody, Option.bind_eq_bind, Option.some_bind]
  rw [base64_roundtrip s.body hbytes]
  rfl

theorem DecodeRequest_EncodeRequest (r : Request) (rest : List Char) (h : ValidRequest r) :
    DecodeRequest (EncodeRequest r ++ rest) = some (r, rest) := by
  obtain ⟨hsorted, hbytes, hlen⟩ := h
  rw [EncodeRequest, DecodeRequest,
    decodeMessage_encodeMessage TypeRequest (marshalRequest r) rest (by decide) hlen]
  dsimp only
  rw [unmarshal_marshal_request r hsorted hbytes]

theorem DecodeResponse_EncodeResponse (s : Response) (rest : List Char) (h : ValidResponse s) :
    DecodeResponse (EncodeResponse s ++ rest) = some (s, rest) := by
  obtain ⟨hsorted, hbytes, hlen⟩ := h
  rw [EncodeResponse, DecodeResponse,
    decodeMessage_encodeMessage TypeResponse (marshalResponse s) rest (by decide) hlen]
  dsimp only
  rw [unmarshal_marshal_response s hsorted hbytes]


/-- C4: for every valid Request frame R, decoding the bytes produced by
encoding R yields R exactly — same id, method, path, header names with
their value lists in the same order, and the same body bytes — and
likewise decode(encode(S)) = S for every valid Response frame S; any
trailing stream content is left unconsumed. -/
theorem C4_frame_roundtrip :
    (∀ (r : Request) (rest : List Char), ValidRequest r →
        DecodeRequest (EncodeRequest r ++ rest) = some (r, rest)) ∧
    (∀ (s : Response) (rest : List Char), ValidResponse s →
        DecodeResponse (EncodeResponse s ++ rest) = some (s, rest)) :=
  ⟨DecodeRequest_EncodeRequest, DecodeResponse_EncodeResponse⟩

theorem C4_frame_roundtrip_witness :
    DecodeRequest (EncodeRequest
        ⟨"r1", "GET", "/a?x=1", [("A", ["x", "y"])], [0, 104, 255]⟩ ++ [qChar]) =
      some (⟨"r1", "GET", "/a?x=1", [("A", ["x", "y"])], [0, 104, 255]⟩, [qChar]) ∧
    DecodeResponse (EncodeResponse
        ⟨"r9", 503, [("Content-Type", ["text/plain"])], [116, 101]⟩ ++ []) =
      some (⟨"r9", 503, [("Content-Type", ["text/plain"])], [116, 101]⟩, []) :=
  ⟨C4_frame_roundtrip.1 _ _ (by decide), C4_frame_roundtrip.2 _ _ (by decide)⟩

end tunnel

namespace relay

open tunnel

/-! ## Helper lemmas on the registry and event traces -/
theorem mapGet_mapSet_self (k : String) (v : Nat) :
    ∀ m : List (String × Nat), mapGet k (mapSet k v m) = some v := by
  intro m
  induction m with
  | nil => simp [mapSet, mapGet]
  | cons e m ih =>
      by_cases h : e.1 = k
      · simp [mapSet, mapGet, h]
      · simp [mapSet, mapGet, h, ih]

theorem mapGet_mapDel_self (k : String) :
    ∀ m : List (String × Nat), mapGet k (mapDel k m) = none := by
  intro m
  induction m with
  | nil => simp [mapDel, mapGet]
  | cons e m ih =>
      by_cases h : e.1 = k
      · simp [mapDel, h, ih]
      · simp [mapDel, mapGet, h, ih]

theorem heapGet_heapSet_ne (a b : Nat) (t : Tunnel) (hab : ¬(a = b)) :
    ∀ h : List (Nat × Tunnel), heapGet b (heapSet a t h) = heapGet b h := by
  intro h
  induction h with
  | nil => simp [heapSet, heapGet]
  | cons e h ih =>
      by_cases he : e.1 = a
      · have : ¬(a = b) := hab
        simp [heapSet, heapGet, he, this, ih]
      · simp [heapSet, heapGet, he, ih]

/-- The deliveries in a drain/close block: one per request, in order. -/
theorem deliversOf_failBlock (mk : pendingRequest → Option Response) :
    ∀ l : List pendingRequest,
      deliversOf (l.flatMap fun pr => [.deliver pr.req.id (mk pr), .closeRespCh pr.req.id]) =
        l.map (fun pr => (pr.req.id, mk pr)) := by
  intro l
  induction l with
  | nil => rfl
  | cons pr l ih =>
      rw [List.flatMap_cons, List.map_cons]
      simp only [deliversOf, List.filterMap_append] at ih ⊢
      rw [ih]
      rfl

theorem count_failBlock (e : Ev)
    (he : ∀ id r, ¬(e = .deliver id r)) (hc : ∀ id, ¬(e = .closeRespCh id)) :
    ∀ l : List pendingRequest,
      (l.flatMap fun pr =>
        [Ev.deliver pr.req.id (some (syntheticResponse pr.req.id "tunnel closed")),
         Ev.closeRespCh pr.req.id]).count e = 0 := by
  intro l
  induction l with
  | nil => rfl
  | cons pr l ih =>
      rw [List.flatMap_cons, List.count_append, ih]
      have h1 : ¬(e = Ev.deliver pr.req.id (some (syntheticResponse pr.req.id "tunnel closed"))) :=
        he _ _
      have h2 : ¬(e = Ev.closeRespCh pr.req.id) := hc _
      simp [List.count_cons, h1, h2]

/-- `deliversOf` drops everything but `deliver` events. -/
theorem deliversOf_append (l1 l2 : List Ev) :
    deliversOf (l1 ++ l2) = deliversOf l1 ++ deliversOf l2 := by
  simp [deliversOf, List.filterMap_append]

/-- Deliveries of a block built from (id, result) pairs. -/
theorem deliversOf_failPairs :
    ∀ l : List (String × Option Response),
      deliversOf (l.flatMap fun f => [.deliver f.1 f.2, .closeRespCh f.1]) = l := by
  intro l
  induction l with
  | nil => rfl
  | cons f l ih =>
      rw [List.flatMap_cons]
      simp only [deliversOf, List.filterMap_append] at ih ⊢
      rw [ih]
      rfl

/-- Close always leaves the state Closed. -/
theorem CloseTunnel_state (t : Tunnel) : (CloseTunnel t).1.state = .closed := by
  rw [CloseTunnel]
  split
  · next h => exact h
  · rfl

/-- Close of a Closed session is a no-op with no events (lines 523-527). -/
theorem CloseTunnel_of_closed (t : Tunnel) (h : t.state = .closed) :
    CloseTunnel t = (t, []) := by
  rw [CloseTunnel, if_pos h]

theorem runCloses_of_closed (n : Nat) (t : Tunnel) (h : t.state = .closed) :
    runCloses n t = (t, []) := by
  induction n with
  | zero => rfl
  | succ n ih =>
      rw [runCloses, CloseTunnel_of_closed t h]
      simp [ih]

/-- The drain loop computes exactly the specification drain: the writer
channel receives the `drainSent` entries appended in order, and the
deliveries are the `drainFails` failures in order. -/
theorem flushGo_spec (cfg : ServerConfig) (now : Nat) :
    ∀ (q : List pendingRequest) (chan : List pendingRequest) (evs0 : List Ev),
      flushGo cfg now q chan evs0 =
        (chan ++ drainSent cfg now q chan.length,
         evs0 ++ (drainFails cfg now q chan.length).flatMap
           (fun f => [.deliver f.1 f.2, .closeRespCh f.1])) := by
  intro q
  induction q with
  | nil =>
      intro chan evs0
      simp [flushGo, drainSent, drainFails]
  | cons pr rest ih =>
      intro chan evs0
      rw [flushGo, drainSent, drainFails]
      by_cases h1 : now - pr.queuedAt > cfg.pendingQueueTTL
      · rw [if_pos h1, if_pos h1, if_pos h1, ih]
        simp
      · rw [if_neg h1, if_neg h1, if_neg h1]
        by_cases h2 : chan.length < reqChCap
        · rw [if_pos h2, if_pos h2, if_pos h2, ih]
          simp
        · rw [if_neg h2, if_neg h2, if_neg h2, ih]
          simp

/-! ## Claim theorems: registry and routing -/
/-- C2 (amended): registering a session for a hostname that already has a
registered session replaces the registry entry with the new session, but
leaves every session — including the ejected one — untouched: register
does not Close the old session. -/
theorem C2_register_replaces (w : World) (tid : Nat) (t : Tunnel)
    (h : heapGet tid w.heap = some t) :
    mapGet t.Domain (RegisterTunnel w tid).tunnels = some tid ∧
    (RegisterTunnel w tid).heap = w.heap := by
  rw [RegisterTunnel, h]
  exact ⟨mapGet_mapSet_self t.Domain tid w.tunnels, rfl⟩

theorem C2_register_replaces_witness :
    mapGet "h" (RegisterTunnel
      ⟨[("h", 0)],
       [(0, ⟨"h", .connected, [], [], [], false, false, true, true, ⟨100, 5000000000⟩⟩),
        (1, ⟨"h", .connected, [], [], [], false, false, true, true, ⟨100, 5000000000⟩⟩)]⟩
      1).tunnels = some 1 ∧
    (RegisterTunnel
      ⟨[("h", 0)],
       [(0, ⟨"h", .connected, [], [], [], false, false, true, true, ⟨100, 5000000000⟩⟩),
        (1, ⟨"h", .connected, [], [], [], false, false, true, true, ⟨100, 5000000000⟩⟩)]⟩
      1).heap =
      [(0, ⟨"h", .connected, [], [], [], false, false, true, true, ⟨100, 5000000000⟩⟩),
       (1, ⟨"h", .connected, [], [], [], false, false, true, true, ⟨100, 5000000000⟩⟩)] :=
  C2_register_replaces
    ⟨[("h", 0)],
     [(0, ⟨"h", .connected, [], [], [], false, false, true, true, ⟨100, 5000000000⟩⟩),
      (1, ⟨"h", .connected, [], [], [], false, false, true, true, ⟨100, 5000000000⟩⟩)]⟩
    1 ⟨"h", .connected, [], [], [], false, false, true, true, ⟨100, 5000000000⟩⟩ (by decide)

/-- C2 counterexample: registering a second session for an occupied
hostname leaves the ejected session in its previous (non-Closed) state —
`RegisterTunnel` does not Close it, contrary to the claim. -/
theorem C2_counterexample :
    heapGet 0 (RegisterTunnel
      ⟨[("h", 0)],
       [(0, ⟨"h", .connected, [], [], [], false, false, true, true, ⟨100, 5000000000⟩⟩),
        (1, ⟨"h", .connected, [], [], [], false, false, true, true, ⟨100, 5000000000⟩⟩)]⟩
      1).heap =
      some ⟨"h", .connected, [], [], [], false, false, true, true, ⟨100, 5000000000⟩⟩ ∧
    mapGet "h" (RegisterTunnel
      ⟨[("h", 0)],
       [(0, ⟨"h", .connected, [], [], [], false, false, true, true, ⟨100, 5000000000⟩⟩),
        (1, ⟨"h", .connected, [], [], [], false, false, true, true, ⟨100, 5000000000⟩⟩)]⟩
      1).tunnels = some 1 ∧
    ¬(TunnelState.connected = TunnelState.closed) := by
  decide

/-- C3: after a second session replaces the first for a hostname, closing
the first runs its on-close callback, which unregisters by domain alone
and thereby deletes the second, still-live session's registry entry;
lookup then finds no session although the second session is untouched. -/
theorem C3_stale_unregister (w : World) (a b : Nat) (ta tb : Tunnel)
    (hab : ¬(a = b)) (hga : heapGet a w.heap = some ta) (hgb : heapGet b w.heap = some tb)
    (hda : ta.Domain = tb.Domain) (hsa : ¬(ta.state = .closed)) (hoa : ta.hasOnClose = true) :
    mapGet tb.Domain (RegisterTunnel w b).tunnels = some b ∧
    mapGet tb.Domain (CloseWorld (RegisterTunnel w b) a).tunnels = none ∧
    heapGet b (CloseWorld (RegisterTunnel w b) a).heap = some tb := by
  have hheap : (RegisterTunnel w b).heap = w.heap := by
    rw [RegisterTunnel, hgb]
  have hreg : mapGet tb.Domain (RegisterTunnel w b).tunnels = some b := by
    rw [RegisterTunnel, hgb]
    exact mapGet_mapSet_self tb.Domain b w.tunnels
  have hclose : CloseWorld (RegisterTunnel w b) a =
      UnregisterTunnel
        { RegisterTunnel w b with heap := heapSet a (CloseTunnel ta).1 (RegisterTunnel w b).heap }
        ta.Domain := by
    rw [CloseWorld, hheap, hga]
    dsimp only
    rw [if_neg hsa, if_pos hoa]
  refine ⟨hreg, ?_, ?_⟩
  · rw [hclose, UnregisterTunnel, ← hda]
    exact mapGet_mapDel_self ta.Domain _
  · rw [hclose, UnregisterTunnel, hheap]
    exact (heapGet_heapSet_ne a b (CloseTunnel ta).1 hab w.heap).trans hgb

theorem C3_stale_unregister_witness :
    mapGet "h" (RegisterTunnel
      ⟨[("h", 0)],
       [(0, ⟨"h", .connected, [], [], [], false, false, true, true, ⟨100, 5000000000⟩⟩),
        (1, ⟨"h", .ready, [], [], [], false, false, true, true, ⟨100, 5000000000⟩⟩)]⟩ 1).tunnels =
      some 1 ∧
    mapGet "h" (CloseWorld (RegisterTunnel
      ⟨[("h", 0)],
       [(0, ⟨"h", .connected, [], [], [], false, false, true, true, ⟨100, 5000000000⟩⟩),
        (1, ⟨"h", .ready, [], [], [], false, false, true, true, ⟨100, 5000000000⟩⟩)]⟩ 1) 0).tunnels =
      none ∧
    heapGet 1 (CloseWorld (RegisterTunnel
      ⟨[("h", 0)],
       [(0, ⟨"h", .connected, [], [], [], false, false, true, true, ⟨100, 5000000000⟩⟩),
        (1, ⟨"h", .ready, [], [], [], false, false, true, true, ⟨100, 5000000000⟩⟩)]⟩ 1) 0).heap =
      some ⟨"h", .ready, [], [], [], false, false, true, true, ⟨100, 5000000000⟩⟩ :=
  C3_stale_unregister
    ⟨[("h", 0)],
     [(0, ⟨"h", .connected, [], [], [], false, false, true, true, ⟨100, 5000000000⟩⟩),
      (1, ⟨"h", .ready, [], [], [], false, false, true, true, ⟨100, 5000000000⟩⟩)]⟩
    0 1
    ⟨"h", .connected, [], [], [], false, false, true, true, ⟨100, 5000000000⟩⟩
    ⟨"h", .ready, [], [], [], false, false, true, true, ⟨100, 5000000000⟩⟩
    (by decide) (by decide) (by decide) (by decide) (by decide) (by decide)

/-- C10: `ServeHTTP` routes on the port-stripped Host, but `handleProxy`
looks the raw Host up again; a request whose Host carries a port suffix is
therefore routed into the proxy and then answered 502 "tunnel not found",
even though the tunnel for the bare hostname exists (and the same request
without the port suffix is proxied). -/
theorem C10_port_lookup :
    HasTunnel
      ⟨[("test.example.com", 0)],
       [(0, ⟨"test.example.com", .ready, [], [], [], false, false, true, true,
          ⟨100, 5000000000⟩⟩)]⟩
      (stripPort "test.example.com:8080") = true ∧
    serveHTTPRoute
      ⟨[("test.example.com", 0)],
       [(0, ⟨"test.example.com", .ready, [], [], [], false, false, true, true,
          ⟨100, 5000000000⟩⟩)]⟩
      "test.example.com:8080" "" = .proxyNotFound ∧
    serveHTTPRoute
      ⟨[("test.example.com", 0)],
       [(0, ⟨"test.example.com", .ready, [], [], [], false, false, true, true,
          ⟨100, 5000000000⟩⟩)]⟩
      "test.example.com" "" = .proxied 0 := by
  decide

/-! ## Claim theorems: the close path -/
/-- C1 (amended): on Close of a non-Closed session, every queued
PendingRequest receives exactly one synthetic "tunnel closed" 503 on its
result slot (in queue order) and the queue is emptied, but the in-flight
table — a local of `readLoop` that `Close` cannot reach — is left intact
and no result is delivered on in-flight slots; instead the `done` channel
is closed, and a caller woken by it observes 502 "tunnel closed", so no
caller stays blocked. -/
theorem C1_close_cleanup (t : Tunnel) (h : ¬(t.state = .closed)) :
    (CloseTunnel t).1.pendingQueue = [] ∧
    deliversOf (CloseTunnel t).2 =
      t.pendingQueue.map
        (fun pr => (pr.req.id, some (syntheticResponse pr.req.id "tunnel closed"))) ∧
    (CloseTunnel t).1.inflight = t.inflight ∧
    (CloseTunnel t).1.doneClosed = true ∧
    handlerSelect .doneChClosed = .httpError 502 "tunnel closed" := by
  rw [CloseTunnel, if_neg h]
  refine ⟨rfl, ?_, rfl, rfl, rfl⟩
  rw [closeEvents]
  rw [deliversOf_append, deliversOf_append, deliversOf_append,
    deliversOf_failBlock (fun pr => some (syntheticResponse pr.req.id "tunnel closed"))]
  have h1 : deliversOf [Ev.cancelCtx, Ev.closeDone] = [] := rfl
  have h2 : deliversOf (if t.hasConn then [Ev.connClose] else []) = [] := by
    split
    · rfl
    · rfl
  have h3 : deliversOf (if t.hasOnClose then [Ev.onCloseCb] else []) = [] := by
    split
    · rfl
    · rfl
  rw [h1, h2, h3]
  simp

theorem C1_close_cleanup_witness :
    (CloseTunnel ⟨"h", .connected, [⟨⟨"q1", "GET", "/", [], []⟩, 5⟩], [],
        [("f1", ⟨⟨"f1", "GET", "/", [], []⟩, 3⟩)], false, false, true, true,
        ⟨100, 5000000000⟩⟩).1.pendingQueue = [] ∧
    deliversOf (CloseTunnel ⟨"h", .connected, [⟨⟨"q1", "GET", "/", [], []⟩, 5⟩], [],
        [("f1", ⟨⟨"f1", "GET", "/", [], []⟩, 3⟩)], false, false, true, true,
        ⟨100, 5000000000⟩⟩).2 =
      [("q1", some (syntheticResponse "q1" "tunnel closed"))] ∧
    (CloseTunnel ⟨"h", .connected, [⟨⟨"q1", "GET", "/", [], []⟩, 5⟩], [],
        [("f1", ⟨⟨"f1", "GET", "/", [], []⟩, 3⟩)], false, false, true, true,
        ⟨100, 5000000000⟩⟩).1.inflight = [("f1", ⟨⟨"f1", "GET", "/", [], []⟩, 3⟩)] ∧
    (CloseTunnel ⟨"h", .connected, [⟨⟨"q1", "GET", "/", [], []⟩, 5⟩], [],
        [("f1", ⟨⟨"f1", "GET", "/", [], []⟩, 3⟩)], false, false, true, true,
        ⟨100, 5000000000⟩⟩).1.doneClosed = true ∧
    handlerSelect .doneChClosed = .httpError 502 "tunnel closed" :=
  C1_close_cleanup
    ⟨"h", .connected, [⟨⟨"q1", "GET", "/", [], []⟩, 5⟩], [],
      [("f1", ⟨⟨"f1", "GET", "/", [], []⟩, 3⟩)], false, false, true, true,
      ⟨100, 5000000000⟩⟩ (by decide)

/-- C1 counterexample: Close of a Ready session with one in-flight
request delivers no result on that request's slot and leaves the
in-flight table undrained, contradicting the claim that every in-flight
PendingRequest has a result delivered on its slot and that the table is
drained before Close returns. -/
theorem C1_counterexample :
    (CloseTunnel ⟨"h", .ready, [], [],
        [("r1", ⟨⟨"r1", "GET", "/", [], []⟩, 0⟩)], false, false, true, true,
        ⟨100, 5000000000⟩⟩).1.inflight =
      [("r1", ⟨⟨"r1", "GET", "/", [], []⟩, 0⟩)] ∧
    deliversOf (CloseTunnel ⟨"h", .ready, [], [],
        [("r1", ⟨⟨"r1", "GET", "/", [], []⟩, 0⟩)], false, false, true, true,
        ⟨100, 5000000000⟩⟩).2 = [] := by
  decide

/-- C6: Close is idempotent — of any number of (mutex-serialized) Close
calls on a live session, exactly one runs the close body: the combined
effect and event trace equal a single Close, with exactly one on-close
callback invocation and one connection close, and a Close of an
already-Closed session returns early touching nothing. -/
theorem C6_close_idempotent (t : Tunnel) (n : Nat) (hn : 1 ≤ n)
    (hs : ¬(t.state = .closed)) (hc : t.hasConn = true) (ho : t.hasOnClose = true) :
    (runCloses n t).1 = (CloseTunnel t).1 ∧
    (runCloses n t).2 = (CloseTunnel t).2 ∧
    (runCloses n t).2.count .onCloseCb = 1 ∧
    (runCloses n t).2.count .connClose = 1 ∧
    (∀ t2 : Tunnel, t2.state = .closed → CloseTunnel t2 = (t2, [])) := by
  obtain ⟨m, rfl⟩ : ∃ m, n = m + 1 := ⟨n - 1, by omega⟩
  have hrun : runCloses (m + 1) t = ((CloseTunnel t).1, (CloseTunnel t).2) := by
    rw [runCloses, runCloses_of_closed m (CloseTunnel t).1 (CloseTunnel_state t)]
    simp
  have hevs : (CloseTunnel t).2 = closeEvents t := by
    rw [CloseTunnel, if_neg hs]
  have hcount1 : (closeEvents t).count Ev.onCloseCb = 1 := by
    rw [closeEvents, hc, ho]
    rw [List.count_append, List.count_append, List.count_append]
    rw [count_failBlock Ev.onCloseCb (fun id r => by simp) (fun id => by simp)]
    rfl
  have hcount2 : (closeEvents t).count Ev.connClose = 1 := by
    rw [closeEvents, hc, ho]
    rw [List.count_append, List.count_append, List.count_append]
    rw [count_failBlock Ev.connClose (fun id r => by simp) (fun id => by simp)]
    rfl
  refine ⟨by rw [hrun], by rw [hrun], ?_, ?_, fun t2 h2 => CloseTunnel_of_closed t2 h2⟩
  · rw [hrun]
    simpa [hevs] using hcount1
  · rw [hrun]
    simpa [hevs] using hcount2

theorem C6_close_idempotent_witness :
    (runCloses 10 ⟨"h", .ready, [], [], [], false, false, true, true,
        ⟨100, 5000000000⟩⟩).1 =
      (CloseTunnel ⟨"h", .ready, [], [], [], false, false, true, true,
        ⟨100, 5000000000⟩⟩).1 ∧
    (runCloses 10 ⟨"h", .ready, [], [], [], false, false, true, true,
        ⟨100, 5000000000⟩⟩).2 =
      (CloseTunnel ⟨"h", .ready, [], [], [], false, false, true, true,
        ⟨100, 5000000000⟩⟩).2 ∧
    (runCloses 10 ⟨"h", .ready, [], [], [], false, false, true, true,
        ⟨100, 5000000000⟩⟩).2.count .onCloseCb = 1 ∧
    (runCloses 10 ⟨"h", .ready, [], [], [], false, false, true, true,
        ⟨100, 5000000000⟩⟩).2.count .connClose = 1 ∧
    (∀ t2 : Tunnel, t2.state = .closed → CloseTunnel t2 = (t2, [])) :=
  C6_close_idempotent
    ⟨"h", .ready, [], [], [], false, false, true, true, ⟨100, 5000000000⟩⟩
    10 (by decide) (by decide) (by decide) (by decide)

/-! ## Claim theorems: state machine, queue bound, drain, writer -/
/-- C5 (amended): every atomic step of the session is monotone —
Connected→Ready on the ready write, any-live-state→Closed on close, or a
stutter — except that the ready-detection state write, which does not
re-check the state, moves the session Closed→Ready when a Close
interleaves between the ready-frame decode and the write. -/
theorem C5_transitions (a b : TunnelState × WaitPc) (h : SessStep a b) :
    (a.1 = .connected ∧ b.1 = .ready) ∨ (¬(a.1 = .closed) ∧ b.1 = .closed) ∨ a.1 = b.1 ∨
    (a.1 = .closed ∧ b.1 = .ready ∧ a.2 = .decoded) := by
  cases h with
  | decode s hns => right; right; left; rfl
  | write s =>
      cases s with
      | connected => left; exact ⟨rfl, rfl⟩
      | ready => right; right; left; rfl
      | closed => right; right; right; exact ⟨rfl, rfl, rfl⟩
  | close s w hns => right; left; exact ⟨hns, rfl⟩

theorem C5_transitions_witness :
    ((TunnelState.connected, WaitPc.decoded).1 = .connected ∧
        (TunnelState.ready, WaitPc.finished).1 = .ready) ∨
      (¬((TunnelState.connected, WaitPc.decoded).1 = .closed) ∧
        (TunnelState.ready, WaitPc.finished).1 = .closed) ∨
      (TunnelState.connected, WaitPc.decoded).1 = (TunnelState.ready, WaitPc.finished).1 ∨
      ((TunnelState.connected, WaitPc.decoded).1 = .closed ∧
        (TunnelState.ready, WaitPc.finished).1 = .ready ∧
        (TunnelState.connected, WaitPc.decoded).2 = .decoded) :=
  C5_transitions (.connected, .decoded) (.ready, .finished) (SessStep.write .connected)

/-- C5 counterexample: the interleaving "ready frame decoded, Close runs,
unguarded ready write runs" is reachable and performs a Closed→Ready
transition, which the claim says no interleaving performs. -/
theorem C5_counterexample :
    SessReachable (.closed, .decoded) ∧
    SessStep (.closed, .decoded) (.ready, .finished) :=
  ⟨SessReachable.step
      (SessReachable.step SessReachable.init (SessStep.decode .connected (by decide)))
      (SessStep.close .connected .decoded (by decide)),
    SessStep.write .closed⟩

/-- C7: the pre-ready queue never exceeds `MaxPendingQueue`: a fresh
session's empty queue satisfies the bound, every queue-touching operation
preserves it, and a dispatch finding the queue full is answered 503 with
`Retry-After: 1` immediately, without being enqueued and without any
state change. -/
theorem C7_queue_bound :
    (∀ t : Tunnel, t.pendingQueue = [] → QueueInv t) ∧
    (∀ (t : Tunnel) (pr : pendingRequest), QueueInv t → QueueInv (handleProxyQueue t pr).1) ∧
    (∀ (t : Tunnel) (now : Nat), QueueInv (flushPendingQueue t now).1) ∧
    (∀ t : Tunnel, QueueInv t → QueueInv (CloseTunnel t).1) ∧
    (∀ (t : Tunnel) (pr : pendingRequest), t.state = .connected →
        t.config.maxPendingQueue ≤ t.pendingQueue.length →
        handleProxyQueue t pr =
          (t, .rejectedFull ⟨503, [("Retry-After", "1")], "tunnel not ready, queue full"⟩)) := by
  refine ⟨?_, ?_, ?_, ?_, ?_⟩
  · intro t h
    rw [QueueInv, h]
    simp
  · intro t pr h
    rw [handleProxyQueue]
    split
    · exact h
    · split
      · split
        · exact h
        · next hst hfull =>
            rw [QueueInv] at h ⊢
            simp only [List.length_append, List.length_singleton]
            omega
      · split
        · exact h
        · split
          · exact h
          · exact h
  · intro t now
    rw [QueueInv, flushPendingQueue]
    simp
  · intro t h
    rw [CloseTunnel]
    split
    · exact h
    · rw [QueueInv]
      simp
  · intro t pr hst hfull
    rw [handleProxyQueue, if_neg (by rw [hst]; decide), if_pos hst, if_pos hfull]

theorem C7_queue_bound_witness :
    QueueInv (handleProxyQueue
      ⟨"h", .connected, [], [], [], false, false, true, true, ⟨2, 5000000000⟩⟩
      ⟨⟨"r1", "GET", "/", [], []⟩, 0⟩).1 ∧
    handleProxyQueue
      ⟨"h", .connected,
        [⟨⟨"a", "GET", "/", [], []⟩, 0⟩, ⟨⟨"b", "GET", "/", [], []⟩, 0⟩],
        [], [], false, false, true, true, ⟨2, 5000000000⟩⟩
      ⟨⟨"c", "GET", "/", [], []⟩, 0⟩ =
      (⟨"h", .connected,
        [⟨⟨"a", "GET", "/", [], []⟩, 0⟩, ⟨⟨"b", "GET", "/", [], []⟩, 0⟩],
        [], [], false, false, true, true, ⟨2, 5000000000⟩⟩,
        .rejectedFull ⟨503, [("Retry-After", "1")], "tunnel not ready, queue full"⟩) :=
  ⟨C7_queue_bound.2.1
      ⟨"h", .connected, [], [], [], false, false, true, true, ⟨2, 5000000000⟩⟩
      ⟨⟨"r1", "GET", "/", [], []⟩, 0⟩ (by decide),
    C7_queue_bound.2.2.2.2
      ⟨"h", .connected,
        [⟨⟨"a", "GET", "/", [], []⟩, 0⟩, ⟨⟨"b", "GET", "/", [], []⟩, 0⟩],
        [], [], false, false, true, true, ⟨2, 5000000000⟩⟩
      ⟨⟨"c", "GET", "/", [], []⟩, 0⟩ (by decide) (by decide)⟩

/-- C8 (amended): on the Ready transition the queue is drained in FIFO
order and emptied; each entry is timed out (synthetic 503 "request
timeout in queue", never handed to the writer), handed to the writer
(appended to `reqCh` in order) when the channel has room, or — the case
the original claim omits — failed with a synthetic 503 "tunnel
overloaded" when the 100-slot writer channel is full; when no entry has
expired and everything fits, all entries are handed over and nothing is
delivered. -/
theorem C8_flush_drain (t : Tunnel) (now : Nat) :
    (flushPendingQueue t now).1.pendingQueue = [] ∧
    (flushPendingQueue t now).1.reqCh =
      t.reqCh ++ drainSent t.config now t.pendingQueue t.reqCh.length ∧
    deliversOf (flushPendingQueue t now).2 =
      drainFails t.config now t.pendingQueue t.reqCh.length ∧
    ((∀ pr ∈ t.pendingQueue, ¬(now - pr.queuedAt > t.config.pendingQueueTTL)) →
      t.reqCh.length + t.pendingQueue.length ≤ reqChCap →
      (flushPendingQueue t now).1.reqCh = t.reqCh ++ t.pendingQueue ∧
      (flushPendingQueue t now).2 = []) := by
  have hspec := flushGo_spec t.config now t.pendingQueue t.reqCh []
  have hfresh : ∀ (q : List pendingRequest) (n : Nat),
      (∀ pr ∈ q, ¬(now - pr.queuedAt > t.config.pendingQueueTTL)) →
      n + q.length ≤ reqChCap →
      drainSent t.config now q n = q ∧ drainFails t.config now q n = [] := by
    intro q
    induction q with
    | nil => intro n _ _; exact ⟨rfl, rfl⟩
    | cons pr rest ih =>
        intro n hq hn
        have hpr : ¬(now - pr.queuedAt > t.config.pendingQueueTTL) :=
          hq pr (List.mem_cons_self pr rest)
        have hlen : n < reqChCap := by
          simp only [List.length_cons] at hn
          omega
        obtain ⟨ h1, h2⟩ := ih (n + 1)
          (fun p hp => hq p (List.mem_cons_of_mem pr hp))
          (by simp only [List.length_cons] at hn; omega)
        rw [drainSent, drainFails, if_neg hpr, if_neg hpr, if_pos hlen, if_pos hlen, h1, h2]
        exact ⟨rfl, rfl⟩
  refine ⟨rfl, ?_, ?_, ?_⟩
  · rw [flushPendingQueue]
    simp only [hspec]
  · rw [flushPendingQueue]
    simp only [hspec, List.nil_append]
    exact deliversOf_failPairs _
  · intro hq hn
    obtain ⟨h1, h2⟩ := hfresh t.pendingQueue t.reqCh.length hq hn
    constructor
    · rw [flushPendingQueue]
      simp only [hspec, h1]
    · rw [flushPendingQueue]
      simp only [hspec, h2]
      rfl

theorem C8_flush_drain_witness :
    (flushPendingQueue
      ⟨"h", .connected, [⟨⟨"a", "GET", "/", [], []⟩, 100⟩], [], [], false, false, true, true,
        ⟨100, 5000000000⟩⟩ 100).1.reqCh =
      [] ++ [⟨⟨"a", "GET", "/", [], []⟩, 100⟩] ∧
    (flushPendingQueue
      ⟨"h", .connected, [⟨⟨"a", "GET", "/", [], []⟩, 100⟩], [], [], false, false, true, true,
        ⟨100, 5000000000⟩⟩ 100).2 = [] :=
  (C8_flush_drain
      ⟨"h", .connected, [⟨⟨"a", "GET", "/", [], []⟩, 100⟩], [], [], false, false, true, true,
        ⟨100, 5000000000⟩⟩ 100).2.2.2 (by decide) (by decide)

/-- C8 counterexample: with 101 fresh (unexpired) entries queued under a
`MaxPendingQueue` of 150 and an empty 100-slot writer channel, the 101st
entry is neither timed out nor handed to the writer: it receives the
synthetic 503 "tunnel overloaded", a third outcome the claim does not
admit (and its body does not contain "timeout"). -/
theorem C8_counterexample :
    (∀ pr ∈ (List.replicate 101 (⟨⟨"rid", "GET", "/", [], []⟩, 1000⟩ : pendingRequest)),
      ¬(1000 - pr.queuedAt > (5000000000 : Nat))) ∧
    (flushPendingQueue
      ⟨"h", .connected, List.replicate 101 ⟨⟨"rid", "GET", "/", [], []⟩, 1000⟩, [], [],
        false, false, true, true, ⟨150, 5000000000⟩⟩ 1000).1.reqCh.length = 100 ∧
    deliversOf (flushPendingQueue
      ⟨"h", .connected, List.replicate 101 ⟨⟨"rid", "GET", "/", [], []⟩, 1000⟩, [], [],
        false, false, true, true, ⟨150, 5000000000⟩⟩ 1000).2 =
      [("rid", some (syntheticResponse "rid" "tunnel overloaded"))] := by
  decide

/-- C9 (amended): for every request handed to the writer, the id is
inserted into the in-flight table before the frame is written; on a write
failure the entry is removed, `nil` is delivered on the waiter's slot
(which the handler reports as 502 "tunnel error"), and the writer
goroutine stops — but the session is not closed by this path: its state,
`done` channel and connection are untouched. -/
theorem C9_writer (t : Tunnel) (pr : pendingRequest) (wireOk : Bool) :
    (writeRequestStep t pr wireOk).2.head? = some (.insertInflight pr.req.id) ∧
    (wireOk = true →
      (writeRequestStep t pr wireOk).2 = [.insertInflight pr.req.id, .wireWrite pr.req.id] ∧
      (writeRequestStep t pr wireOk).1.inflight = t.inflight ++ [(pr.req.id, pr)]) ∧
    (wireOk = false →
      (writeRequestStep t pr wireOk).2 =
        [.insertInflight pr.req.id, .deliver pr.req.id none, .closeRespCh pr.req.id] ∧
      (writeRequestStep t pr wireOk).1.state = t.state ∧
      (writeRequestStep t pr wireOk).1.doneClosed = t.doneClosed ∧
      (writeRequestStep t pr wireOk).1.connClosed = t.connClosed ∧
      handlerSelect (.respArrived none) = .httpError 502 "tunnel error") := by
  cases wireOk with
  | true =>
      refine ⟨rfl, fun _ => ⟨rfl, rfl⟩, fun hfalse => absurd hfalse (by decide)⟩
  | false =>
      refine ⟨rfl, fun htrue => absurd htrue (by decide), fun _ => ⟨rfl, rfl, rfl, rfl, rfl⟩⟩

theorem C9_writer_witness :
    (writeRequestStep
      ⟨"h", .ready, [], [], [], false, false, true, true, ⟨100, 5000000000⟩⟩
      ⟨⟨"w1", "GET", "/", [], []⟩, 0⟩ false).2 =
      [.insertInflight "w1", .deliver "w1" none, .closeRespCh "w1"] ∧
    (writeRequestStep
      ⟨"h", .ready, [], [], [], false, false, true, true, ⟨100, 5000000000⟩⟩
      ⟨⟨"w1", "GET", "/", [], []⟩, 0⟩ false).1.state = TunnelState.ready ∧
    (writeRequestStep
      ⟨"h", .ready, [], [], [], false, false, true, true, ⟨100, 5000000000⟩⟩
      ⟨⟨"w1", "GET", "/", [], []⟩, 0⟩ false).1.doneClosed = false ∧
    (writeRequestStep
      ⟨"h", .ready, [], [], [], false, false, true, true, ⟨100, 5000000000⟩⟩
      ⟨⟨"w1", "GET", "/", [], []⟩, 0⟩ false).1.connClosed = false ∧
    handlerSelect (.respArrived none) = .httpError 502 "tunnel error" :=
  (C9_writer
    ⟨"h", .ready, [], [], [], false, false, true, true, ⟨100, 5000000000⟩⟩
    ⟨⟨"w1", "GET", "/", [], []⟩, 0⟩ false).2.2 rfl

/-- C9 counterexample: after a failed write on a Ready session the session
is still Ready — its state is unchanged, `done` is not closed and the
connection not closed — contradicting "if the write fails the session is
closed". -/
theorem C9_counterexample :
    (writeRequestStep
      ⟨"h", .ready, [], [], [], false, false, true, true, ⟨100, 5000000000⟩⟩
      ⟨⟨"w1", "GET", "/", [], []⟩, 0⟩ false).1.state = TunnelState.ready ∧
    ¬(TunnelState.ready = TunnelState.closed) ∧
    (writeRequestStep
      ⟨"h", .ready, [], [], [], false, false, true, true, ⟨100, 5000000000⟩⟩
      ⟨⟨"w1", "GET", "/", [], []⟩, 0⟩ false).1.doneClosed = false ∧
    (writeRequestStep
      ⟨"h", .ready, [], [], [], false, false, true, true, ⟨100, 5000000000⟩⟩
      ⟨⟨"w1", "GET", "/", [], []⟩, 0⟩ false).1.connClosed = false := by
  decide

end relay

end Lobber